import Mathlib

/-!
Verification development for the libsigrok session core (src/session.c).

The C file is shallowly embedded: machine integers become Int or Nat,
GLib arrays become lists, nullable pointers become Option, and external
collaborators (the monotonic clock, poll, libusb, drivers, transform
modules) become explicit oracle parameters.  Callbacks are identified by
numeric ids resolved through a caller-supplied oracle, so that the state
type stays first-order and decidable.  Field and function names follow
src/session.c.
-/

namespace Sigrok

/-- Return codes of the SR_OK and SR_ERR family.  Modelled from the spec:
the numeric values live in the public header libsigrok.h which is not part
of src/; only SR_OK = 0, errors negative, and mutual distinctness matter. -/
abbrev SR := Int

def SR_OK : SR := 0

def SR_ERR : SR := -1

def SR_ERR_MALLOC : SR := -2

def SR_ERR_ARG : SR := -3

def SR_ERR_BUG : SR := -4

/-- Largest value of a 64-bit signed integer, as used for the due field of
sources without a timeout (session.c line 958) and for min_due (line 422). -/
def INT64_MAX : Int := 9223372036854775807

/-- Largest value of a 32-bit signed int, the clamp applied to the poll
timeout (session.c line 453). -/
def INT_MAX : Int := 2147483647

/-- One GPollFD record: a file descriptor plus requested and returned event
masks.  The event masks are gushort bitmasks, modelled as Nat. -/
structure GPollFD where
  fd : Int
  events : Nat
  revents : Nat
deriving Repr, DecidableEq, Inhabited

/-- One entry of the source registry (struct source, session.c lines 47-66).
The callback pointer becomes a numeric id resolved through a callback
oracle, and cb_data an opaque integer.  The two final fields are ghost
data used only to state properties: sid is a unique identity assigned at
insertion (fresh ids let us speak about one registry entry across
mutations), and fds records the poll descriptors this source contributed
at insertion time.  Neither ghost field is ever read by the embedded code
paths, so behaviour is unchanged. -/
structure Source where
  timeout : Int
  due : Int
  cb : Nat
  cb_data : Int
  poll_object : Int
  num_fds : Nat
  triggered : Bool
  sid : Nat
  fds : List GPollFD
deriving Repr, DecidableEq, Inhabited

/-- The slice of struct sr_context that session.c reads: the libusb context
handle used as the poll_object of the USB source, and the
usb_source_present flag. -/
structure SrContext where
  libusb_ctx : Int
  usb_source_present : Bool
deriving Repr, DecidableEq, Inhabited

/-- The driver capability slice consumed by session.c: presence of
dev_open, the result that dev_acquisition_start would return (the driver
itself is external, so its return value is an oracle), and presence of
dev_acquisition_stop. -/
structure Driver where
  has_dev_open : Bool
  dev_acquisition_start_ret : SR
  has_dev_acquisition_stop : Bool
deriving Repr, DecidableEq, Inhabited

/-- A device instance as seen by session.c.  channels lists the enabled
flag of each channel (sr_session_start scans for one enabled channel).
config_commit_ret is modelled from the spec: sr_config_commit is external
to src/, so its result is an oracle value carried by the device.
in_session models the sdi->session back-pointer being non-null. -/
structure Dev where
  driver : Option Driver
  channels : List Bool
  config_commit_ret : SR
  in_session : Bool
deriving Repr, DecidableEq, Inhabited

/-- One trigger match (struct sr_trigger_match): whether the channel
pointer is non-null, and the match code (0 is falsy in C). -/
structure TriggerMatch where
  has_channel : Bool
  match_code : Int
deriving Repr, DecidableEq, Inhabited

/-- One trigger stage: its list of matches (the C field is called matches,
which is a reserved word here). -/
structure TriggerStage where
  stage_matches : List TriggerMatch
deriving Repr, DecidableEq, Inhabited

/-- A trigger: its list of stages. -/
structure SrTrigger where
  stages : List TriggerStage
deriving Repr, DecidableEq, Inhabited

/-- The session aggregate (struct sr_session).  The transform list is kept
outside this structure (transform modules carry functions, see
sr_session_send below); datafeed callbacks are numeric subscriber ids in
registration order.  nextSid is ghost state: the next fresh source
identity handed out by source insertion. -/
structure Session where
  ctx : SrContext
  devs : List Dev
  datafeed_callbacks : List Nat
  sources : List Source
  pollfds : List GPollFD
  trigger : Option SrTrigger
  running : Bool
  abort_session : Bool
  nextSid : Nat
deriving Repr, DecidableEq, Inhabited

/-- sr_session_new (session.c lines 86-106): fresh session with empty
device roster, empty registry and empty poll-descriptor array. -/
def sr_session_new (ctx : SrContext) : Session :=
  { ctx := ctx
    devs := []
    datafeed_callbacks := []
    sources := []
    pollfds := []
    trigger := none
    running := false
    abort_session := false
    nextSid := 0 }

/-- The num_fds entries that g_array_append_vals copies from the caller's
descriptor array (session.c line 967).  C reads exactly num_fds records
from the array; reads past the end of a shorter caller array are
indeterminate and modelled as zeroed records. -/
def takePad (l : List GPollFD) (n : Nat) : List GPollFD :=
  l.take n ++ List.replicate (n - l.length) { fd := 0, events := 0, revents := 0 }

theorem takePad_length (l : List GPollFD) (n : Nat) : (takePad l n).length = n := by
  simp [takePad]
  omega

/-- sr_session_source_add_internal (session.c lines 917-970).  Checks in
source order: null callback, null descriptor array with nonzero num_fds,
duplicate poll_object; then appends the new source and its descriptors.
now stands for g_get_monotonic_time(). -/
def sr_session_source_add_internal (session : Session)
    (pollfds : Option (List GPollFD)) (num_fds : Nat) (timeout : Int)
    (cb : Option Nat) (cb_data : Int) (poll_object : Int) (now : Int) :
    SR × Session :=
  match cb with
  | none => (SR_ERR_ARG, session)
  | some cbv =>
    if pollfds = none ∧ num_fds ≠ 0 then (SR_ERR_ARG, session)
    else if session.sources.any (fun src => src.poll_object == poll_object) then
      (SR_ERR, session)
    else
      let entry_fds := takePad (pollfds.getD []) num_fds
      let src : Source :=
        { timeout := if timeout ≥ 0 then 1000 * timeout else -1
          due := if timeout ≥ 0 then now + 1000 * timeout else INT64_MAX
          cb := cbv
          cb_data := cb_data
          poll_object := poll_object
          num_fds := num_fds
          triggered := false
          sid := session.nextSid
          fds := entry_fds }
      (SR_OK,
        { session with
            sources := session.sources ++ [src]
            pollfds := session.pollfds ++ entry_fds
            nextSid := session.nextSid + 1 })

/-- sr_session_source_add (session.c lines 988-1003): the fd-keyed entry
point.  A negative fd with a negative timeout is rejected (a timer source
without timeout would block indefinitely); otherwise one GPollFD is built
and num_fds is 0 for fd < 0 (pure timer) and 1 otherwise. -/
def sr_session_source_add (session : Session) (fd : Int) (events : Nat)
    (timeout : Int) (cb : Option Nat) (cb_data : Int) (now : Int) :
    SR × Session :=
  if fd < 0 ∧ timeout < 0 then (SR_ERR_ARG, session)
  else
    sr_session_source_add_internal session
      (some [{ fd := fd, events := events, revents := 0 }])
      (if fd < 0 then 0 else 1) timeout cb cb_data fd now

/-- The search loop of sr_session_source_remove_internal (session.c lines
1081-1101): locate the first source whose poll_object matches, returning
its registry index together with the running fd_index (the sum of num_fds
over the sources before it). -/
def findSource : List Source → Int → Option (Nat × Nat)
  | [], _ => none
  | src :: rest, po =>
    if src.poll_object = po then some (0, 0)
    else
      match findSource rest po with
      | none => none
      | some (i, k) => some (i + 1, k + src.num_fds)

/-- sr_session_source_remove_internal (session.c lines 1074-1109): remove
the matched source and its num_fds consecutive poll descriptors; clear
usb_source_present when the removed key is the libusb context.  A missing
key yields SR_ERR_BUG and leaves the session unchanged. -/
def sr_session_source_remove_internal (session : Session) (poll_object : Int) :
    SR × Session :=
  match findSource session.sources poll_object with
  | none => (SR_ERR_BUG, session)
  | some (i, fd_index) =>
    let src := session.sources.getD i default
    let pollfds' :=
      if 0 < src.num_fds then
        session.pollfds.take fd_index ++ session.pollfds.drop (fd_index + src.num_fds)
      else session.pollfds
    let ctx' :=
      if poll_object = session.ctx.libusb_ctx then
        { session.ctx with usb_source_present := false }
      else session.ctx
    (SR_OK,
      { session with
          sources := session.sources.eraseIdx i
          pollfds := pollfds'
          ctx := ctx' })

/-- sr_session_source_remove (session.c lines 1123-1126): the fd-keyed
wrapper around removal. -/
def sr_session_source_remove (session : Session) (fd : Int) : SR × Session :=
  sr_session_source_remove_internal session fd

/-! ### The registry consistency invariant (claim C1) -/

/-- One registry mutation: either of the two insertion entry points, or a
removal by poll_object. -/
inductive RegistryOp where
  | addInternal (pollfds : Option (List GPollFD)) (num_fds : Nat) (timeout : Int)
      (cb : Option Nat) (cb_data : Int) (poll_object : Int) (now : Int)
  | add (fd : Int) (events : Nat) (timeout : Int) (cb : Option Nat)
      (cb_data : Int) (now : Int)
  | remove (poll_object : Int)

/-- Apply one registry mutation through the embedded session.c functions,
keeping the resulting session (the status code is what the caller sees). -/
def applyRegistryOp (s : Session) : RegistryOp → Session
  | .addInternal pfds n t cb cbd po now =>
    (sr_session_source_add_internal s pfds n t cb cbd po now).2
  | .add fd ev t cb cbd now => (sr_session_source_add s fd ev t cb cbd now).2
  | .remove po => (sr_session_source_remove_internal s po).2

/-- Apply a sequence of registry mutations in order. -/
def applyRegistryOps (s : Session) (ops : List RegistryOp) : Session :=
  ops.foldl applyRegistryOp s

/-- Total number of poll descriptors owned by a list of sources. -/
def sumNumFds (l : List Source) : Nat := (l.map Source.num_fds).sum

/-- The registry/poll-array lockstep invariant: the flat descriptor array
is exactly the concatenation, in registry order, of the descriptors each
source contributed, and each source owns exactly num_fds of them. -/
def registryConsistent (s : Session) : Prop :=
  s.pollfds = (s.sources.map Source.fds).flatten ∧
  ∀ src ∈ s.sources, src.fds.length = src.num_fds

theorem sumNumFds_eq_length_flatten (xs : List Source)
    (h : ∀ src ∈ xs, src.fds.length = src.num_fds) :
    ((xs.map Source.fds).flatten).length = sumNumFds xs := by
  rw [List.length_flatten, sumNumFds]
  induction xs with
  | nil => simp
  | cons a rest ih =>
    simp only [List.map_cons, List.sum_cons]
    rw [h a (by simp), ih (fun src hs => h src (by simp [hs]))]

theorem flatten_take_sources (xs : List Source)
    (h : ∀ src ∈ xs, src.fds.length = src.num_fds) (i : Nat) :
    ((xs.map Source.fds).flatten).take (sumNumFds (xs.take i))
      = ((xs.take i).map Source.fds).flatten := by
  induction xs generalizing i with
  | nil => simp
  | cons a rest ih =>
    cases i with
    | zero => simp [sumNumFds]
    | succ i =>
      have ha : a.fds.length = a.num_fds := h a (by simp)
      have hrest : ∀ src ∈ rest, src.fds.length = src.num_fds :=
        fun src hs => h src (by simp [hs])
      simp only [List.take_succ_cons, List.map_cons, List.flatten_cons, sumNumFds,
        List.sum_cons]
      rw [List.take_append_eq_append_take, List.take_of_length_le (by omega),
        show a.num_fds + ((rest.take i).map Source.num_fds).sum - a.fds.length
            = sumNumFds (rest.take i) by rw [sumNumFds]; omega,
        ih hrest i]

theorem flatten_drop_sources (xs : List Source)
    (h : ∀ src ∈ xs, src.fds.length = src.num_fds) (i : Nat) :
    ((xs.map Source.fds).flatten).drop (sumNumFds (xs.take i))
      = ((xs.drop i).map Source.fds).flatten := by
  induction xs generalizing i with
  | nil => simp
  | cons a rest ih =>
    cases i with
    | zero => simp [sumNumFds]
    | succ i =>
      have ha : a.fds.length = a.num_fds := h a (by simp)
      have hrest : ∀ src ∈ rest, src.fds.length = src.num_fds :=
        fun src hs => h src (by simp [hs])
      simp only [List.take_succ_cons, List.drop_succ_cons, List.map_cons,
        List.flatten_cons, sumNumFds, List.sum_cons]
      rw [List.drop_append_eq_append_drop, List.drop_eq_nil_of_le (by omega),
        List.nil_append,
        show a.num_fds + ((rest.take i).map Source.num_fds).sum - a.fds.length
            = sumNumFds (rest.take i) by rw [sumNumFds]; omega,
        ih hrest i]

/-- The search loop of removal returns the index of the first match and the
fd_index it accumulated: exactly the sum of num_fds over the sources before
the match. -/
theorem findSource_some (l : List Source) (po : Int) (i k : Nat)
    (h : findSource l po = some (i, k)) :
    ∃ hi : i < l.length,
      (l.get ⟨i, hi⟩).poll_object = po ∧ k = sumNumFds (l.take i) := by
  induction l generalizing i k with
  | nil => simp [findSource] at h
  | cons src rest ih =>
    rw [findSource] at h
    by_cases hp : src.poll_object = po
    · simp only [hp, if_pos rfl] at h
      obtain ⟨rfl, rfl⟩ : 0 = i ∧ 0 = k := by
        simpa [Prod.ext_iff] using h
      exact ⟨by simp, by simp [hp], by simp [sumNumFds]⟩
    · rw [if_neg hp] at h
      cases hrec : findSource rest po with
      | none => rw [hrec] at h; exact absurd h (by simp)
      | some ik =>
        obtain ⟨i', k'⟩ := ik
        rw [hrec] at h
        obtain ⟨rfl, rfl⟩ : i' + 1 = i ∧ k' + src.num_fds = k := by
          simpa [Prod.ext_iff] using h
        obtain ⟨hi', hpo', hk'⟩ := ih i' k' hrec
        refine ⟨by simpa using Nat.succ_lt_succ hi', by simpa using hpo', ?_⟩
        simp [sumNumFds, List.take_succ_cons, hk', Nat.add_comm]

/-- Inserting through sr_session_source_add_internal preserves the
registry/poll-array lockstep invariant. -/
theorem add_internal_consistent (s : Session) (pfds : Option (List GPollFD))
    (n : Nat) (t : Int) (cb : Option Nat) (cbd po now : Int)
    (h : registryConsistent s) :
    registryConsistent (sr_session_source_add_internal s pfds n t cb cbd po now).2 := by
  obtain ⟨hflat, hlen⟩ := h
  cases cb with
  | none => exact ⟨hflat, hlen⟩
  | some cbv =>
    simp only [sr_session_source_add_internal]
    by_cases h1 : pfds = none ∧ n ≠ 0
    · simp only [if_pos h1]
      exact ⟨hflat, hlen⟩
    · rw [if_neg h1]
      by_cases h2 : s.sources.any (fun src => src.poll_object == po)
      · simp only [if_pos h2]
        exact ⟨hflat, hlen⟩
      · simp only [if_neg h2]
        constructor
        · simp only [List.map_append, List.flatten_append, hflat, List.map_cons,
            List.map_nil, List.flatten_cons, List.flatten_nil, List.append_nil]
        · intro src hsrc
          rcases List.mem_append.mp hsrc with hold | hnew
          · exact hlen src hold
          · simp only [List.mem_singleton] at hnew
            subst hnew
            exact takePad_length _ _

/-- Inserting through sr_session_source_add preserves the invariant. -/
theorem source_add_consistent (s : Session) (fd : Int) (ev : Nat) (t : Int)
    (cb : Option Nat) (cbd now : Int) (h : registryConsistent s) :
    registryConsistent (sr_session_source_add s fd ev t cb cbd now).2 := by
  rw [sr_session_source_add]
  by_cases h1 : fd < 0 ∧ t < 0
  · simp only [if_pos h1]; exact h
  · rw [if_neg h1]
    exact add_internal_consistent _ _ _ _ _ _ _ _ h

/-- Removal through sr_session_source_remove_internal preserves the
invariant: the removed slice is exactly the matched source's contribution. -/
theorem remove_internal_consistent (s : Session) (po : Int)
    (h : registryConsistent s) :
    registryConsistent (sr_session_source_remove_internal s po).2 := by
  obtain ⟨hflat, hlen⟩ := h
  rw [sr_session_source_remove_internal]
  cases hfind : findSource s.sources po with
  | none => exact ⟨hflat, hlen⟩
  | some ik =>
    obtain ⟨i, k⟩ := ik
    obtain ⟨hi, hpo, hk⟩ := findSource_some s.sources po i k hfind
    have hgetD : s.sources.getD i default = s.sources.get ⟨i, hi⟩ := by
      rw [List.getD_eq_getElem _ _ hi, List.get_eq_getElem]
    have hmem : s.sources.get ⟨i, hi⟩ ∈ s.sources := List.get_mem _ _ _
    have hfds : (s.sources.get ⟨i, hi⟩).fds.length
        = (s.sources.get ⟨i, hi⟩).num_fds := hlen _ hmem
    have hslice :
        s.pollfds.take k ++
            s.pollfds.drop (k + (s.sources.getD i default).num_fds)
          = ((s.sources.eraseIdx i).map Source.fds).flatten := by
      rw [hgetD, hflat, hk, flatten_take_sources _ hlen i]
      have hk1 : sumNumFds (s.sources.take i) + (s.sources.get ⟨i, hi⟩).num_fds
          = sumNumFds (s.sources.take (i + 1)) := by
        rw [sumNumFds, sumNumFds, List.map_take, List.map_take, List.take_succ,
          List.getElem?_map, List.getElem?_eq_getElem hi]
        simp [List.get_eq_getElem]
      rw [hk1, flatten_drop_sources _ hlen (i + 1),
        List.eraseIdx_eq_take_drop_succ, List.map_append, List.flatten_append,
        List.map_take]
    constructor
    · by_cases hn : 0 < (s.sources.getD i default).num_fds
      · simpa only [if_pos hn] using hslice
      · simp only [if_neg hn]
        have hz : (s.sources.getD i default).num_fds = 0 := by omega
        rw [← hslice, hz, Nat.add_zero, List.take_append_drop]
    · intro src hsrc
      exact hlen src ((List.eraseIdx_sublist s.sources i).subset hsrc)

/-- Every sequence of add and remove operations preserves the invariant. -/
theorem applyRegistryOps_consistent (s : Session) (ops : List RegistryOp)
    (h : registryConsistent s) :
    registryConsistent (applyRegistryOps s ops) := by
  induction ops generalizing s with
  | nil => exact h
  | cons op rest ih =>
    rw [applyRegistryOps, List.foldl_cons]
    apply ih
    cases op with
    | addInternal pfds n t cb cbd po now => exact add_internal_consistent _ _ _ _ _ _ _ _ h
    | add fd ev t cb cbd now => exact source_add_consistent _ _ _ _ _ _ _ h
    | remove po => exact remove_internal_consistent _ _ h

theorem consistent_new (ctx : SrContext) : registryConsistent (sr_session_new ctx) := by
  exact ⟨rfl, by intro src hsrc; simp [sr_session_new] at hsrc⟩

/-- The i-th source's slice of the poll-descriptor array, located at the
prefix sum of num_fds, is exactly the descriptors it contributed. -/
theorem consistent_slice (s : Session) (h : registryConsistent s) (i : Nat)
    (hi : i < s.sources.length) :
    sumNumFds (s.sources.take i) + (s.sources.get ⟨i, hi⟩).num_fds
        ≤ s.pollfds.length ∧
    (s.pollfds.drop (sumNumFds (s.sources.take i))).take
        ((s.sources.get ⟨i, hi⟩).num_fds) = (s.sources.get ⟨i, hi⟩).fds := by
  obtain ⟨hflat, hlen⟩ := h
  have hdrop : s.pollfds.drop (sumNumFds (s.sources.take i))
      = ((s.sources.drop i).map Source.fds).flatten := by
    rw [hflat]; exact flatten_drop_sources _ hlen i
  have hcons : s.sources.drop i
      = s.sources.get ⟨i, hi⟩ :: s.sources.drop (i + 1) := by
    rw [List.get_eq_getElem]; exact List.drop_eq_getElem_cons hi
  have hfds : (s.sources.get ⟨i, hi⟩).fds.length
      = (s.sources.get ⟨i, hi⟩).num_fds := hlen _ (List.get_mem _ _ _)
  constructor
  · have hsum : s.pollfds.length = sumNumFds s.sources := by
      rw [hflat]; exact sumNumFds_eq_length_flatten _ hlen
    have hsplit : sumNumFds (s.sources.take i) + sumNumFds (s.sources.drop i)
        = sumNumFds s.sources := by
      rw [sumNumFds, sumNumFds, sumNumFds, List.map_take, List.map_drop]
      exact List.sum_take_add_sum_drop _ _
    have hge : (s.sources.get ⟨i, hi⟩).num_fds ≤ sumNumFds (s.sources.drop i) := by
      rw [hcons, sumNumFds, List.map_cons, List.sum_cons]
      omega
    omega
  · rw [hdrop, hcons, List.map_cons, List.flatten_cons, ← hfds, List.take_left]

/-- Claim C1: after any sequence of source add and remove operations from a
fresh session, the poll-descriptor array has exactly sum(num_fds) entries,
it is the concatenation in registry order of the slices the sources
contributed, and the slice owned by the i-th source starts at the prefix
sum of num_fds over the sources before it (and lies within bounds). -/
theorem C1_registry_pollfd_invariant (ctx : SrContext) (ops : List RegistryOp) :
    ((applyRegistryOps (sr_session_new ctx) ops).pollfds.length
        = sumNumFds (applyRegistryOps (sr_session_new ctx) ops).sources) ∧
    ((applyRegistryOps (sr_session_new ctx) ops).pollfds
        = ((applyRegistryOps (sr_session_new ctx) ops).sources.map Source.fds).flatten) ∧
    ∀ i, i < (applyRegistryOps (sr_session_new ctx) ops).sources.length →
      sumNumFds ((applyRegistryOps (sr_session_new ctx) ops).sources.take i)
          + ((applyRegistryOps (sr_session_new ctx) ops).sources.getD i default).num_fds
        ≤ (applyRegistryOps (sr_session_new ctx) ops).pollfds.length ∧
      ((applyRegistryOps (sr_session_new ctx) ops).pollfds.drop
          (sumNumFds ((applyRegistryOps (sr_session_new ctx) ops).sources.take i))).take
          ((applyRegistryOps (sr_session_new ctx) ops).sources.getD i default).num_fds
        = ((applyRegistryOps (sr_session_new ctx) ops).sources.getD i default).fds := by
  have h := applyRegistryOps_consistent (sr_session_new ctx) ops (consistent_new ctx)
  refine ⟨?_, h.1, fun i hi => ?_⟩
  · rw [h.1]
    exact sumNumFds_eq_length_flatten _ h.2
  · have hs := consistent_slice _ h i hi
    rw [List.get_eq_getElem] at hs
    rw [List.getD_eq_getElem _ _ hi]
    exact hs

/-- Concrete context used by the closed witness instances below. -/
def wCtx : SrContext := { libusb_ctx := 999, usb_source_present := false }

/-- Concrete registry history: add an fd source, add a second, remove the
first. -/
def wOps1 : List RegistryOp :=
  [.add 3 1 100 (some 0) 0 0, .add 5 1 50 (some 1) 0 0, .remove 3]

theorem C1_registry_pollfd_invariant_witness :
    ((applyRegistryOps (sr_session_new wCtx) wOps1).pollfds.length
        = sumNumFds (applyRegistryOps (sr_session_new wCtx) wOps1).sources) ∧
    ((applyRegistryOps (sr_session_new wCtx) wOps1).pollfds.drop
        (sumNumFds ((applyRegistryOps (sr_session_new wCtx) wOps1).sources.take 0))).take
        ((applyRegistryOps (sr_session_new wCtx) wOps1).sources.getD 0 default).num_fds
      = ((applyRegistryOps (sr_session_new wCtx) wOps1).sources.getD 0 default).fds :=
  ⟨(C1_registry_pollfd_invariant wCtx wOps1).1,
   ((C1_registry_pollfd_invariant wCtx wOps1).2.2 0 (by decide)).2⟩

/-- Claim C5: the registry's insertion operation rejects (a) a nonzero
num_fds with no descriptor array, (b) num_fds = 0 (a negative fd at the
public entry point) paired with a negative timeout, and (c) a poll_object
already present; in every rejection the session, including its source
registry and poll-descriptor array, is returned unchanged. -/
theorem C5_source_add_rejections :
    (∀ (s : Session) (num_fds : Nat) (timeout : Int) (cb : Option Nat)
        (cb_data poll_object now : Int),
      0 < num_fds →
      sr_session_source_add_internal s none num_fds timeout cb cb_data
          poll_object now = (SR_ERR_ARG, s)) ∧
    (∀ (s : Session) (fd : Int) (events : Nat) (timeout : Int) (cb : Option Nat)
        (cb_data now : Int),
      fd < 0 → timeout < 0 →
      sr_session_source_add s fd events timeout cb cb_data now = (SR_ERR_ARG, s)) ∧
    (∀ (s : Session) (pollfds : Option (List GPollFD)) (num_fds : Nat)
        (timeout : Int) (cbv : Nat) (cb_data poll_object now : Int),
      ¬(pollfds = none ∧ num_fds ≠ 0) →
      (∃ src ∈ s.sources, src.poll_object = poll_object) →
      sr_session_source_add_internal s pollfds num_fds timeout (some cbv)
          cb_data poll_object now = (SR_ERR, s)) := by
  refine ⟨?_, ?_, ?_⟩
  · intro s n t cb cbd po now hn
    cases cb with
    | none => rfl
    | some cbv =>
      simp only [sr_session_source_add_internal]
      rw [if_pos ⟨trivial, by omega⟩]
  · intro s fd ev t cb cbd now h1 h2
    rw [sr_session_source_add, if_pos ⟨h1, h2⟩]
  · intro s pfds n t cbv cbd po now h1 h2
    simp only [sr_session_source_add_internal]
    rw [if_neg h1]
    have hany : s.sources.any (fun src => src.poll_object == po) = true := by
      rcases h2 with ⟨src, hmem, hpo⟩
      exact List.any_eq_true.mpr ⟨src, hmem, by simp [hpo]⟩
    simp [hany]

/-- Concrete timer-style source with poll key 7, used by witnesses. -/
def wSrc7 : Source :=
  { timeout := -1, due := INT64_MAX, cb := 0, cb_data := 0, poll_object := 7,
    num_fds := 0, triggered := false, sid := 0, fds := [] }

/-- Concrete session holding wSrc7. -/
def wSess5 : Session :=
  { sr_session_new wCtx with sources := [wSrc7], nextSid := 1 }

theorem C5_source_add_rejections_witness :
    (sr_session_source_add_internal wSess5 none 2 5 (some 0) 0 9 0
        = (SR_ERR_ARG, wSess5)) ∧
    (sr_session_source_add wSess5 (-1) 0 (-1) (some 0) 0 0
        = (SR_ERR_ARG, wSess5)) ∧
    (sr_session_source_add_internal wSess5 (some []) 0 5 (some 0) 0 7 0
        = (SR_ERR, wSess5)) :=
  ⟨C5_source_add_rejections.1 wSess5 2 5 (some 0) 0 9 0 (by decide),
   C5_source_add_rejections.2.1 wSess5 (-1) 0 (-1) (some 0) 0 0 (by decide) (by decide),
   C5_source_add_rejections.2.2 wSess5 (some []) 0 5 0 0 7 0 (by decide) (by decide)⟩

/-! ### Packet model, deep copy and free (claims C6, C9, C10) -/

/-- Datafeed packet tags (the SR_DF_* enumeration of the public header;
the enumeration lives outside src/, so tags are constructors rather than
fixed integers, with a catch-all for values unknown to this version). -/
inductive PacketType where
  | SR_DF_HEADER
  | SR_DF_END
  | SR_DF_META
  | SR_DF_TRIGGER
  | SR_DF_LOGIC
  | SR_DF_ANALOG
  | SR_DF_FRAME_BEGIN
  | SR_DF_FRAME_END
  | SR_DF_ANALOG2
  | unknown (code : Int)
deriving Repr, DecidableEq, Inhabited

/-- Fixed-size header payload (struct sr_datafeed_header). -/
structure SrDatafeedHeader where
  feed_version : Int
  starttime_sec : Int
  starttime_usec : Int
deriving Repr, DecidableEq, Inhabited

/-- One config entry of a Meta payload (struct sr_config): the key and the
identity of the reference-counted GVariant it points to. -/
structure SrConfig where
  key : Int
  data : Nat
deriving Repr, DecidableEq, Inhabited

/-- Meta payload: the list of config entries. -/
structure SrDatafeedMeta where
  config : List SrConfig
deriving Repr, DecidableEq, Inhabited

/-- Logic payload: length, unit size, and the bytes of the sample buffer
the data pointer refers to. -/
structure SrDatafeedLogic where
  length : Nat
  unitsize : Nat
  data : List Nat
deriving Repr, DecidableEq, Inhabited

/-- Analog payload: channel list (references), sample count, measured
quantity / unit / flags, and the float sample buffer (samples are opaque
words to the copy path, which moves them with memcpy). -/
structure SrDatafeedAnalog where
  channels : List Nat
  num_samples : Nat
  mq : Int
  unit : Int
  mqflags : Int
  data : List Int
deriving Repr, DecidableEq, Inhabited

/-- A structured payload value. -/
inductive Payload where
  | header (h : SrDatafeedHeader)
  | meta (m : SrDatafeedMeta)
  | logic (l : SrDatafeedLogic)
  | analog (a : SrDatafeedAnalog)
deriving Repr, DecidableEq, Inhabited

/-- A datafeed packet: tag plus optional payload pointer. -/
structure Packet where
  type : PacketType
  payload : Option Payload
deriving Repr, DecidableEq, Inhabited

/-- ABI sizes.  Modelled from the spec: struct layouts belong to the public
header outside src/.  The exact numbers only matter through the facts that
a pointer is 8 bytes while the Logic and Analog payload structs are larger
(the spec's suspected-bug note: the copy allocates sizeof a pointer where
the struct size was meant). -/
def sizeof_pointer : Nat := 8

def sizeof_sr_datafeed_packet : Nat := 16

def sizeof_sr_datafeed_header : Nat := 24

def sizeof_sr_datafeed_meta : Nat := 8

def sizeof_sr_datafeed_logic : Nat := 24

def sizeof_sr_datafeed_analog : Nat := 40

/-- Kinds of heap blocks the copy path allocates. -/
inductive AllocKind where
  | packetStruct
  | payloadStruct
  | dataBuffer
deriving Repr, DecidableEq

/-- One allocation event: its kind, requested size, and whether it came
from g_malloc0 (zero-initialised) rather than g_malloc. -/
structure Alloc where
  kind : AllocKind
  size : Nat
  zeroed : Bool
deriving Repr, DecidableEq

/-- What the copy stored behind the out-parameter's payload pointer. -/
inductive CopiedPayload where
  | none
  | header (h : SrDatafeedHeader)
  | meta (m : SrDatafeedMeta)
  | corrupt
deriving Repr, DecidableEq

/-- Result of one sr_packet_copy call: return code, the packet written
through the out parameter (tag plus stored payload), the allocation log,
the GVariant reference counts afterwards, and whether the call ran into
undefined behaviour (out-of-bounds store, write through an uninitialised
pointer, or null dereference).  Behaviour past the first such fault is
undefined; the model records execution up to and including it. -/
structure CopyResult where
  ret : SR
  out : Option (PacketType × CopiedPayload)
  allocs : List Alloc
  rc : Nat → Int
  ub : Bool

/-- g_variant_ref on variant v: bump its reference count. -/
def g_variant_ref (rc : Nat → Int) (v : Nat) : Nat → Int :=
  fun x => if x = v then rc x + 1 else rc x

/-- g_variant_unref on variant v: drop its reference count. -/
def g_variant_unref (rc : Nat → Int) (v : Nat) : Nat → Int :=
  fun x => if x = v then rc x - 1 else rc x

/-- The g_slist_foreach over meta->config in sr_packet_copy (session.c line
1206) with copy_src (lines 1172-1177).  The user data passed to the
foreach is meta_copy->config, which g_malloc0 left NULL, so copy_src
receives a null meta pointer: it first refs the entry's variant (line
1174) and then dereferences the null pointer to append (line 1175), a
fault.  The model records the refcount bump of the first entry and flags
the fault; no element is ever appended to the copy's config list. -/
def metaCopyForeach (rc : Nat → Int) : List SrConfig → (Nat → Int) × Bool
  | [] => (rc, false)
  | src :: _ => (g_variant_ref rc src.data, true)

/-- sr_packet_copy (session.c lines 1179-1235).  The out parameter is
assigned a zeroed packet struct and its type field before the tag switch
(lines 1190-1191).  The Logic and Analog branches allocate
g_malloc(sizeof(logic)) and g_malloc(sizeof(analog)) respectively, the
size of the local pointer variable (8 bytes) rather than of the payload
struct: the subsequent field stores run past the 8 allocated bytes and
the memcpy destination logic_copy->data / analog_copy->data is an
uninitialised pointer, so no data buffer is ever allocated and the stored
payload is undefined (CopiedPayload.corrupt, ub = true).  An input whose
payload pointer does not match its tag is equally undefined behaviour. -/
def sr_packet_copy (rc : Nat → Int) (packet : Packet) : CopyResult :=
  let base : List Alloc :=
    [{ kind := .packetStruct, size := sizeof_sr_datafeed_packet, zeroed := true }]
  match packet.type with
  | .SR_DF_TRIGGER =>
    { ret := SR_OK, out := some (packet.type, .none), allocs := base, rc := rc,
      ub := false }
  | .SR_DF_END =>
    { ret := SR_OK, out := some (packet.type, .none), allocs := base, rc := rc,
      ub := false }
  | .SR_DF_HEADER =>
    match packet.payload with
    | some (.header h) =>
      { ret := SR_OK, out := some (packet.type, .header h)
        allocs := base ++
          [{ kind := .payloadStruct, size := sizeof_sr_datafeed_header, zeroed := false }]
        rc := rc, ub := false }
    | _ =>
      { ret := SR_OK, out := some (packet.type, .corrupt), allocs := base,
        rc := rc, ub := true }
  | .SR_DF_META =>
    match packet.payload with
    | some (.meta m) =>
      let refd := metaCopyForeach rc m.config
      { ret := SR_OK, out := some (packet.type, .meta { config := [] })
        allocs := base ++
          [{ kind := .payloadStruct, size := sizeof_sr_datafeed_meta, zeroed := true }]
        rc := refd.1, ub := refd.2 }
    | _ =>
      { ret := SR_OK, out := some (packet.type, .corrupt), allocs := base,
        rc := rc, ub := true }
  | .SR_DF_LOGIC =>
    match packet.payload with
    | some (.logic _) =>
      { ret := SR_OK, out := some (packet.type, .corrupt)
        allocs := base ++
          [{ kind := .payloadStruct, size := sizeof_pointer, zeroed := false }]
        rc := rc, ub := true }
    | _ =>
      { ret := SR_OK, out := some (packet.type, .corrupt), allocs := base,
        rc := rc, ub := true }
  | .SR_DF_ANALOG =>
    match packet.payload with
    | some (.analog _) =>
      { ret := SR_OK, out := some (packet.type, .corrupt)
        allocs := base ++
          [{ kind := .payloadStruct, size := sizeof_pointer, zeroed := false }]
        rc := rc, ub := true }
    | _ =>
      { ret := SR_OK, out := some (packet.type, .corrupt), allocs := base,
        rc := rc, ub := true }
  | _ =>
    { ret := SR_ERR, out := some (packet.type, .none), allocs := base, rc := rc,
      ub := false }

/-- sr_packet_free (session.c lines 1237-1280), restricted to its effect
on GVariant reference counts: only the SR_DF_META branch touches them,
unrefing the variant of every entry of the payload's config list (lines
1256-1260).  The g_free calls release memory but move no refcounts. -/
def sr_packet_free_rc (rc : Nat → Int) (p : PacketType × CopiedPayload) :
    Nat → Int :=
  match p with
  | (.SR_DF_META, .meta m) =>
    m.config.foldl (fun r c => g_variant_unref r c.data) rc
  | _ => rc

/-- The tags handled by sr_packet_copy's switch; everything else falls to
the default branch.  Note SR_DF_FRAME_BEGIN, SR_DF_FRAME_END and
SR_DF_ANALOG2 are known to the runtime (datafeed_dump handles them) but
not to the copy. -/
def recognizedByCopy : PacketType → Bool
  | .SR_DF_TRIGGER => true
  | .SR_DF_END => true
  | .SR_DF_HEADER => true
  | .SR_DF_META => true
  | .SR_DF_LOGIC => true
  | .SR_DF_ANALOG => true
  | _ => false

/-- Claim C10: on a packet whose tag the copy does not recognize,
sr_packet_copy returns an error, but the out-parameter has already been
assigned a freshly allocated, zero-initialised packet carrying the input's
tag and a null payload, and nothing else happened (one allocation, no
refcount movement, no fault). -/
theorem C10_unknown_tag_out_param (rc : Nat → Int) (p : Packet)
    (h : recognizedByCopy p.type = false) :
    (sr_packet_copy rc p).ret = SR_ERR ∧
    (sr_packet_copy rc p).out = some (p.type, CopiedPayload.none) ∧
    (sr_packet_copy rc p).allocs
      = [{ kind := .packetStruct, size := sizeof_sr_datafeed_packet, zeroed := true }] ∧
    (sr_packet_copy rc p).ub = false ∧
    ∀ v, (sr_packet_copy rc p).rc v = rc v := by
  obtain ⟨ty, pl⟩ := p
  cases ty <;> simp_all [recognizedByCopy, sr_packet_copy]

/-- Unrecognized-tag packet used by the C10 witness. -/
def wFramePacket : Packet := { type := .SR_DF_FRAME_BEGIN, payload := none }

/-- Baseline reference counts for the copy examples: every variant at 1. -/
def wRc : Nat → Int := fun _ => 1

theorem C10_unknown_tag_out_param_witness :
    (sr_packet_copy wRc wFramePacket).ret = SR_ERR ∧
    (sr_packet_copy wRc wFramePacket).out
      = some (wFramePacket.type, CopiedPayload.none) ∧
    (sr_packet_copy wRc wFramePacket).allocs
      = [{ kind := .packetStruct, size := sizeof_sr_datafeed_packet, zeroed := true }] ∧
    (sr_packet_copy wRc wFramePacket).ub = false ∧
    ∀ v, (sr_packet_copy wRc wFramePacket).rc v = wRc v :=
  C10_unknown_tag_out_param wRc wFramePacket (by decide)

/-- Logic packet with one one-byte sample, the failing input of claim C6. -/
def wLogicPacket : Packet :=
  { type := .SR_DF_LOGIC
    payload := some (.logic { length := 1, unitsize := 1, data := [171] }) }

/-- Claim C6 (code bug): deep-copying a Logic packet is supposed to build a
fresh payload struct and a fresh length-times-unitsize data buffer holding
the original bytes.  Evaluating the embedded copy on a concrete Logic
packet shows what the code does instead: the only payload allocation is
g_malloc(sizeof(logic)) = 8 bytes, the size of a pointer and smaller than
the payload struct; no data buffer is allocated at all; and the call runs
into undefined behaviour (field stores past the 8 bytes, memcpy through
the uninitialised data pointer). -/
theorem C6_logic_copy_bug_eval :
    (sr_packet_copy wRc wLogicPacket).allocs
      = [{ kind := .packetStruct, size := sizeof_sr_datafeed_packet, zeroed := true },
         { kind := .payloadStruct, size := sizeof_pointer, zeroed := false }] ∧
    sizeof_pointer < sizeof_sr_datafeed_logic ∧
    (∀ a ∈ (sr_packet_copy wRc wLogicPacket).allocs, a.kind ≠ AllocKind.dataBuffer) ∧
    (sr_packet_copy wRc wLogicPacket).ub = true := by
  decide

/-- Meta packet with one config entry whose variant is number 5, the
failing input of claim C9. -/
def wMetaPacket : Packet :=
  { type := .SR_DF_META
    payload := some (.meta { config := [{ key := 1, data := 5 }] }) }

/-- Claim C9 (code bug): copy followed by free is supposed to return every
refcount touched by the copy to its pre-copy value.  On a Meta packet with
one config entry (variant 5, refcount 1): the copy's foreach refs the
variant but passes the null config field as the user data, so copy_src
faults on a null meta pointer (ub) and the copy's config list stays empty;
freeing the copy therefore unrefs nothing and the variant is left at
refcount 2, not its pre-copy value 1. -/
theorem C9_meta_copy_free_not_roundtrip :
    wRc 5 = 1 ∧
    (sr_packet_copy wRc wMetaPacket).ub = true ∧
    (sr_packet_copy wRc wMetaPacket).rc 5 = 2 ∧
    sr_packet_free_rc (sr_packet_copy wRc wMetaPacket).rc
        ((sr_packet_copy wRc wMetaPacket).out.getD (.SR_DF_END, .none)) 5 = 2 := by
  decide

/-! ### Datafeed bus: transform chain and subscriber fan-out (claim C3) -/

/-- A transform module as consumed by sr_session_send: receive maps the
input packet to a status and an optional output packet (the C out
parameter; NULL means the packet was consumed). -/
structure SrTransform where
  receive : Packet → Int × Option Packet

/-- The transform loop of sr_session_send (session.c lines 861-885) fused
with the subscriber fan-out (lines 891-896): thread the packet through the
transforms in list order; a negative status fails the send with SR_ERR and
delivers nothing; an absent output packet ends the send with SR_OK and
delivers nothing; otherwise the surviving packet is handed to every
datafeed callback in registration order.  Deliveries are returned as
(subscriber id, packet) pairs in invocation order. -/
def sr_session_send_loop (dcbs : List Nat) :
    List SrTransform → Packet → SR × List (Nat × Packet)
  | [], packet_in => (SR_OK, dcbs.map (fun cb => (cb, packet_in)))
  | t :: rest, packet_in =>
    let (ret, packet_out) := t.receive packet_in
    if ret < 0 then (SR_ERR, [])
    else
      match packet_out with
      | none => (SR_OK, [])
      | some p => sr_session_send_loop dcbs rest p

/-- The device argument of sr_session_send: its session back-pointer, if
any, carries the session's transform list and subscriber ids. -/
structure SendDev where
  session : Option (List SrTransform × List Nat)

/-- sr_session_send (session.c lines 832-899): null checks on the device,
packet and session, then the transform chain and fan-out. -/
def sr_session_send (sdi : Option SendDev) (packet : Option Packet) :
    SR × List (Nat × Packet) :=
  match sdi with
  | none => (SR_ERR_ARG, [])
  | some d =>
    match packet with
    | none => (SR_ERR_ARG, [])
    | some p =>
      match d.session with
      | none => (SR_ERR_BUG, [])
      | some (transforms, dcbs) => sr_session_send_loop dcbs transforms p

/-- The specified behaviour of the transform chain, following the spec's
words: each transform is invoked as receive(state, in) giving (status,
out); if status < 0 the send fails; if out is absent the packet has been
consumed; otherwise out becomes the input of the next transform. -/
def chainSpec : List SrTransform → Packet → Except Unit (Option Packet)
  | [], p => .ok (some p)
  | t :: rest, p =>
    let r := t.receive p
    if r.1 < 0 then .error ()
    else
      match r.2 with
      | none => .ok none
      | some q => chainSpec rest q

/-- The embedded transform loop agrees with the spec-side chain
description, case by case. -/
theorem send_loop_spec (dcbs : List Nat) (ts : List SrTransform) (p : Packet) :
    sr_session_send_loop dcbs ts p =
      match chainSpec ts p with
      | .error _ => (SR_ERR, [])
      | .ok Option.none => (SR_OK, [])
      | .ok (some q) => (SR_OK, dcbs.map (fun cb => (cb, q))) := by
  induction ts generalizing p with
  | nil => rfl
  | cons t rest ih =>
    simp only [sr_session_send_loop, chainSpec]
    rcases hrp : t.receive p with ⟨ret, pout⟩
    simp only [hrp]
    by_cases hr : ret < 0
    · simp only [if_pos hr]
    · simp only [if_neg hr]
      cases pout with
      | none => rfl
      | some q => exact ih q

/-- Claim C3: send pipes the packet through the transforms in order; a
negative transform status makes send fail with no subscriber called; a
transform returning no output packet makes send return Ok with no
subscriber called; otherwise the packet surviving the chain is delivered
to every subscriber in registration order before send returns. -/
theorem C3_send_pipeline (d : SendDev) (p : Packet)
    (transforms : List SrTransform) (dcbs : List Nat)
    (hs : d.session = some (transforms, dcbs)) :
    sr_session_send (some d) (some p) =
      match chainSpec transforms p with
      | .error _ => (SR_ERR, [])
      | .ok Option.none => (SR_OK, [])
      | .ok (some q) => (SR_OK, dcbs.map (fun cb => (cb, q))) := by
  rw [sr_session_send, hs]
  exact send_loop_spec dcbs transforms p

/-- Transform that passes Header packets through and consumes the rest,
used by the C3 witness (the spec's drop scenario). -/
def wDropTransform : SrTransform :=
  { receive := fun p =>
      match p.type with
      | .SR_DF_HEADER => (0, some p)
      | _ => (0, Option.none) }

/-- Concrete device bound to a session with one transform and two
subscribers. -/
def wSendDev : SendDev := { session := some ([wDropTransform], [10, 11]) }

/-- Header packet used by the C3 witness. -/
def wHeaderPacket : Packet :=
  { type := .SR_DF_HEADER
    payload := some (.header { feed_version := 1, starttime_sec := 0, starttime_usec := 0 }) }

theorem C3_send_pipeline_witness :
    sr_session_send (some wSendDev) (some wHeaderPacket) =
      match chainSpec [wDropTransform] wHeaderPacket with
      | .error _ => (SR_ERR, [])
      | .ok Option.none => (SR_OK, [])
      | .ok (some q) => (SR_OK, [10, 11].map (fun cb => (cb, q))) :=
  C3_send_pipeline wSendDev wHeaderPacket [wDropTransform] [10, 11] rfl

/-! ### Stop protocol, event loop and run (claims C2, C4, C7, C8) -/

/-- sr_session_stop_sync (session.c lines 711-733): invoke each device
driver's dev_acquisition_stop if present (an external effect with no
bearing on session state) and clear the running flag. -/
def sr_session_stop_sync (s : Session) : SR × Session :=
  (SR_OK, { s with running := false })

/-- sr_session_stop (session.c lines 753-765): set the abort flag under
the stop mutex and return. -/
def sr_session_stop (s : Session) : SR × Session :=
  (SR_OK, { s with abort_session := true })

/-- One record of a callback invocation made by the dispatch pass, with
the source fields the surrounding checks used: its ghost identity, the
callback id and arguments, the per-source timeout and pre-reschedule due,
the effective deadline after the USB adjustment, whether that adjustment
fired, and the value of the source's triggered flag at the moment of the
call. -/
structure CallEvent where
  sid : Nat
  cb : Nat
  poll_object : Int
  fd : Int
  revents : Nat
  timeout : Int
  dueBefore : Int
  effectiveDue : Int
  usbAdjusted : Bool
  triggeredAtCall : Bool
deriving Repr, DecidableEq, Inhabited

/-- Observable events of the loop: a g_poll invocation with its computed
timeout and result, a source-callback invocation, a completed synchronous
stop, run entering its loop (the point where it sets running), and a
ghost marker recording that sr_session_start was called and what it
returned (start itself mutates nothing in the session). -/
inductive Ev where
  | pollCall (timeout_ms : Int) (ret : Int)
  | call (e : CallEvent)
  | stopSync
  | runEnter
  | startCall (ret : SR)
deriving Repr, DecidableEq

/-- The callback invocations contained in an event list. -/
def callEvents (evs : List Ev) : List CallEvent :=
  evs.filterMap (fun e => match e with | .call ce => some ce | _ => none)

/-- sr_session_check_aborted (session.c lines 376-390): under the stop
mutex, read the abort flag; if set, run the synchronous stop and clear
the flag.  Returns the flag value read, the updated session, and the
emitted stop event if any. -/
def sr_session_check_aborted (s : Session) : Bool × Session × List Ev :=
  if s.abort_session then
    (true, { (sr_session_stop_sync s).2 with abort_session := false }, [Ev.stopSync])
  else (false, s, [])

/-- Session mutations a source callback may perform through the session
API while the dispatch pass runs. -/
inductive CbOp where
  | sourceAdd (fd : Int) (events : Nat) (timeout : Int) (cb : Option Nat)
      (cb_data : Int) (now : Int)
  | sourceAddInternal (pollfds : Option (List GPollFD)) (num_fds : Nat)
      (timeout : Int) (cb : Option Nat) (cb_data : Int) (poll_object : Int) (now : Int)
  | sourceRemove (poll_object : Int)
  | requestStop

/-- Apply one callback-issued mutation through the embedded API. -/
def applyCbOp (s : Session) : CbOp → Session
  | .sourceAdd fd ev t cb cbd now => (sr_session_source_add s fd ev t cb cbd now).2
  | .sourceAddInternal pf n t cb cbd po now =>
    (sr_session_source_add_internal s pf n t cb cbd po now).2
  | .sourceRemove po => (sr_session_source_remove_internal s po).2
  | .requestStop => (sr_session_stop s).2

/-- Apply a callback's mutations in order. -/
def applyCbOps (s : Session) (ops : List CbOp) : Session := ops.foldl applyCbOp s

/-- A callback oracle: resolves a callback id applied to (fd, revents,
cb_data) into the boolean the callback returns (false requests removal)
and the session mutations it performed. -/
def CbOracle : Type := Nat → Int → Nat → Int → Bool × List CbOp

/-- The per-source revents aggregation of the dispatch pass (session.c
lines 486-494): fd starts as the truncated poll_object, then each of the
source's num_fds poll entries overwrites fd and ORs its revents in.
Out-of-range reads (impossible while the registry invariant holds) are
modelled as zeroed records. -/
def aggregateFd (pollfds : List GPollFD) (fd_index num_fds : Nat) (fd0 : Int) :
    Int × Nat :=
  (List.range num_fds).foldl
    (fun acc k =>
      let p := pollfds.getD (fd_index + k) default
      (p.fd, acc.2 ||| p.revents))
    (fd0, 0)

/-- The body of a firing source, first half (session.c lines 520-522): if
the source has a timeout, reschedule its deadline, and set its triggered
flag before the callback runs. -/
def fireSource (stop_time : Int) (source : Source) : Source :=
  { source with
    due := if source.timeout ≥ 0 then stop_time + source.timeout else source.due
    triggered := true }

/-- The mutation half of one firing (session.c lines 520-538): update the
source in place, run its callback (with whatever session mutations it
performs), remove the source when the callback returned false, and unless
the stopped latch is already set consult the abort flag.  Returns the new
stopped latch, the session, and the emitted stop event if any. -/
def dispatchStep (cbs : CbOracle) (stop_time : Int) (stopped : Bool)
    (s : Session) (i : Nat) (fd : Int) (revents : Nat) :
    Bool × Session × List Ev :=
  let source := s.sources.getD i default
  let s1 := { s with sources := s.sources.set i (fireSource stop_time source) }
  let cbres := cbs source.cb fd revents source.cb_data
  let s2 := applyCbOps s1 cbres.2
  let s3 := if cbres.1 then s2
    else (sr_session_source_remove_internal s2 source.poll_object).2
  if stopped then (true, s3, []) else sr_session_check_aborted s3

/-- The record of one firing, assembled from the source fields the guards
used (session.c lines 485-528). -/
def fireRecord (stop_time usb_due : Int) (s : Session) (i : Nat) (fd : Int)
    (revents : Nat) : CallEvent :=
  let source := s.sources.getD i default
  let usbAdj : Bool :=
    decide (usb_due < source.due ∧ source.poll_object = s.ctx.libusb_ctx)
  { sid := source.sid
    cb := source.cb
    poll_object := source.poll_object
    fd := fd
    revents := revents
    timeout := source.timeout
    dueBefore := source.due
    effectiveDue := if usbAdj then usb_due else source.due
    usbAdjusted := usbAdj
    triggeredAtCall := (fireSource stop_time source).triggered }

/-- The dispatch pass of sr_session_iteration (session.c lines 478-543),
with explicit fuel since callbacks may keep adding due sources.  Arguments
mirror the C locals: the running index i, the running fd_index, the
triggered-anything flag and the stopped latch.  After a callback fires the
C code assigns fd_index = 0 and i = 0 as the last statements of the loop
body, so the for-loop increment makes the restarted pass begin at index 1
with fd_index 0 (modelled faithfully below).  Returns the session, the
triggered flag, and the events emitted. -/
def dispatchLoop (cbs : CbOracle) (pollRet stop_time usb_due : Int) :
    Nat → Nat → Nat → Bool → Bool → Session → Session × Bool × List Ev
  | 0, _, _, triggeredAny, _, s => (s, triggeredAny, [])
  | fuel + 1, i, fd_index, triggeredAny, stopped, s =>
    if i < s.sources.length then
      let source := s.sources.getD i default
      let agg := aggregateFd s.pollfds fd_index source.num_fds source.poll_object
      let fd_index' := fd_index + source.num_fds
      if source.triggered then
        dispatchLoop cbs pollRet stop_time usb_due fuel (i + 1) fd_index'
          triggeredAny stopped s
      else if pollRet > 0 ∧ agg.2 = 0 then
        dispatchLoop cbs pollRet stop_time usb_due fuel (i + 1) fd_index'
          triggeredAny stopped s
      else
        let fd := if source.num_fds > 1 then -1 else agg.1
        let revents := if pollRet ≤ 0 then 0 else agg.2
        let usbAdj : Bool :=
          decide (usb_due < source.due ∧ source.poll_object = s.ctx.libusb_ctx)
        let due := if usbAdj then usb_due else source.due
        if revents = 0 ∧ stop_time < due then
          dispatchLoop cbs pollRet stop_time usb_due fuel (i + 1) fd_index'
            triggeredAny stopped s
        else
          let ce := fireRecord stop_time usb_due s i fd revents
          let step := dispatchStep cbs stop_time stopped s i fd revents
          let rest := dispatchLoop cbs pollRet stop_time usb_due fuel 1 0
            true step.1 step.2.1
          (rest.1, rest.2.1, Ev.call ce :: (step.2.2 ++ rest.2.2))
    else (s, triggeredAny, [])

/-- Result of libusb_get_next_timeout: an error, no pending timeout, or a
pending timeout that many microseconds away. -/
inductive UsbHint where
  | err
  | noTimeout
  | timeout (usec : Int)
deriving Repr, DecidableEq

/-- The external inputs of one iteration: the two monotonic clock reads,
the libusb timeout hint, g_poll's return value, whether a negative return
had errno EINTR, and the revents g_poll wrote into each descriptor. -/
structure IterOracle where
  start_time : Int
  stop_time : Int
  usbHint : UsbHint
  pollRet : Int
  pollEINTR : Bool
  pollRevents : Nat → Nat

/-- The min_due scan of sr_session_iteration (session.c lines 424-429). -/
def computeMinDue (sources : List Source) : Int :=
  sources.foldl (fun m src => if src.due < m then src.due else m) INT64_MAX

/-- The triggered-flag reset performed by the same scan. -/
def resetTriggered (s : Session) : Session :=
  { s with sources := s.sources.map (fun src => { src with triggered := false }) }

/-- g_poll writing revents into every descriptor of the flat array. -/
def pollWrite (pollfds : List GPollFD) (f : Nat → Nat) : List GPollFD :=
  pollfds.mapIdx (fun k p => { p with revents := f k })

/-- The usb_due computed by the HAVE_LIBUSB_1_0 block (session.c lines
430-449): INT64_MAX unless a USB source is present and libusb reports a
pending timeout, in which case start_time plus the hint. -/
def usbDueOf (present : Bool) (hint : UsbHint) (start_time : Int) : Int :=
  if present then
    match hint with
    | .timeout t => start_time + t
    | _ => INT64_MAX
  else INT64_MAX

/-- Fold of one candidate into min_due (session.c lines 426-427, 442-443). -/
def imin (a b : Int) : Int := if a < b then a else b

/-- The poll timeout derivation (session.c lines 450-455): block forever
when nothing is due, else round the microsecond distance up to
milliseconds clamped to INT_MAX, else return immediately. -/
def pollTimeoutMs (min_due start_time : Int) : Int :=
  if min_due = INT64_MAX then -1
  else if min_due > start_time then
    min ((min_due - start_time + 999) / 1000) INT_MAX
  else 0

/-- sr_session_iteration (session.c lines 399-550): empty registry returns
after one abort check; otherwise compute min_due and reset triggered
flags, consult libusb for a timeout hint (an error is fatal), derive the
poll timeout, poll (a negative return other than EINTR is fatal), run the
dispatch pass, and if nothing fired check the abort flag once. -/
def sr_session_iteration (fuel : Nat) (cbs : CbOracle) (o : IterOracle)
    (s : Session) : SR × Session × List Ev :=
  if s.sources.length = 0 then
    let ca := sr_session_check_aborted s
    (SR_OK, ca.2.1, ca.2.2)
  else
    let s0 := resetTriggered s
    if s0.ctx.usb_source_present = true ∧ o.usbHint = UsbHint.err then
      (SR_ERR, s0, [])
    else
      let usb_due := usbDueOf s0.ctx.usb_source_present o.usbHint o.start_time
      let min_due := imin usb_due (computeMinDue s.sources)
      let timeout_ms := pollTimeoutMs min_due o.start_time
      let s1 := { s0 with pollfds := pollWrite s0.pollfds o.pollRevents }
      if o.pollRet < 0 ∧ o.pollEINTR = false then
        (SR_ERR, s1, [Ev.pollCall timeout_ms o.pollRet])
      else
        let d := dispatchLoop cbs o.pollRet o.stop_time usb_due fuel 0 0 false false s1
        if d.2.1 then (SR_OK, d.1, Ev.pollCall timeout_ms o.pollRet :: d.2.2)
        else
          let ca := sr_session_check_aborted d.1
          (SR_OK, ca.2.1, Ev.pollCall timeout_ms o.pollRet :: (d.2.2 ++ ca.2.2))

/-- The while loop of sr_session_run (session.c lines 687-691), driven by
fuel (the loop need not terminate); none signals exhausted fuel with the
loop still live.  The per-iteration oracles are indexed by the iteration
number k. -/
def runLoop (iterFuel : Nat) (cbs : CbOracle) (oracles : Nat → IterOracle) :
    Nat → Nat → Session → Option SR × Session × List Ev
  | 0, _, s => (none, s, [])
  | fuel + 1, k, s =>
    if s.sources.length > 0 then
      let it := sr_session_iteration iterFuel cbs (oracles k) s
      if it.1 ≠ SR_OK then (some it.1, it.2.1, it.2.2)
      else
        let rest := runLoop iterFuel cbs oracles fuel (k + 1) it.2.1
        (rest.1, rest.2.1, it.2.2 ++ rest.2.2)
    else (some SR_OK, s, [])

/-- sr_session_run (session.c lines 667-693): a session without devices
cannot be run (SR_ERR_ARG before anything happens); otherwise running is
set and iterations are polled until the registry empties or one fails. -/
def sr_session_run (runFuel iterFuel : Nat) (cbs : CbOracle)
    (oracles : Nat → IterOracle) (s : Session) : Option SR × Session × List Ev :=
  if s.devs = [] then (some SR_ERR_ARG, s, [])
  else
    let r := runLoop iterFuel cbs oracles runFuel 0 { s with running := true }
    (r.1, r.2.1, Ev.runEnter :: r.2.2)

/-- verify_trigger (session.c lines 552-586): reject an empty stage list,
a stage with no matches, a match with no channel, or a match code of 0.
The C loop returns at the first failure; only SR_OK or SR_ERR can result,
so the early-return structure collapses to this conjunction. -/
def verify_trigger (t : SrTrigger) : SR :=
  if t.stages = [] then SR_ERR
  else if t.stages.all (fun st =>
      (!st.stage_matches.isEmpty) &&
      st.stage_matches.all (fun m => m.has_channel && decide (m.match_code ≠ 0)))
  then SR_OK else SR_ERR

/-- dev_acquisition_start as called by session.c.  Calling through a null
driver pointer would be undefined behaviour in C; it is modelled as the
integrator-error code. -/
def acquisitionStart (d : Dev) : SR :=
  match d.driver with
  | some dr => dr.dev_acquisition_start_ret
  | none => SR_ERR_BUG

/-- The per-device loop of sr_session_start (session.c lines 622-649):
require an enabled channel, commit config, start acquisition; stop at the
first failure. -/
def startDevLoop : List Dev → SR
  | [] => SR_OK
  | d :: rest =>
    if d.channels.any (fun en => en) = false then SR_ERR
    else if d.config_commit_ret ≠ SR_OK then d.config_commit_ret
    else if acquisitionStart d ≠ SR_OK then acquisitionStart d
    else startDevLoop rest

/-- sr_session_start (session.c lines 598-654): reject a session without
devices, validate the trigger if present, then run the per-device start
sequence.  Note that start never touches the running flag. -/
def sr_session_start (s : Session) : SR :=
  if s.devs = [] then SR_ERR_ARG
  else
    match s.trigger with
    | some t => if verify_trigger t ≠ SR_OK then SR_ERR else startDevLoop s.devs
    | none => startDevLoop s.devs

/-- sr_session_dev_add (session.c lines 188-245): reject a device already
in a session; enroll a driverless (virtual) device directly; require
dev_open of a real device; and when the session is already running, commit
config and start acquisition immediately, reporting but not rolling back
on failure. -/
def sr_session_dev_add (s : Session) (sdi : Option Dev) : SR × Session :=
  match sdi with
  | none => (SR_ERR_ARG, s)
  | some d =>
    if d.in_session then (SR_ERR_ARG, s)
    else
      match d.driver with
      | none =>
        (SR_OK, { s with devs := s.devs ++ [{ d with in_session := true }] })
      | some dr =>
        if dr.has_dev_open = false then (SR_ERR_BUG, s)
        else
          let s' := { s with devs := s.devs ++ [{ d with in_session := true }] }
          if s'.running then
            if d.config_commit_ret ≠ SR_OK then (d.config_commit_ret, s')
            else if dr.dev_acquisition_start_ret ≠ SR_OK then
              (dr.dev_acquisition_start_ret, s')
            else (SR_OK, s')
          else (SR_OK, s')

/-- The public session operations whose interleavings claims C4 and C8
quantify over. -/
inductive SessionOp where
  | devAdd (sdi : Option Dev)
  | start
  | run (runFuel iterFuel : Nat) (cbs : CbOracle) (oracles : Nat → IterOracle)
  | stopSync
  | requestStop
  | sourceAdd (fd : Int) (events : Nat) (timeout : Int) (cb : Option Nat)
      (cb_data : Int) (now : Int)
  | sourceRemove (poll_object : Int)

/-- Apply one public operation, collecting the events it emits.  start
emits a ghost marker carrying its return code (it performs no session
mutation of its own; its driver calls are external). -/
def applySessionOp (s : Session) : SessionOp → Session × List Ev
  | .devAdd sdi => ((sr_session_dev_add s sdi).2, [])
  | .start => (s, [Ev.startCall (sr_session_start s)])
  | .run rf itf cbs os =>
    let r := sr_session_run rf itf cbs os s
    (r.2.1, r.2.2)
  | .stopSync => ((sr_session_stop_sync s).2, [Ev.stopSync])
  | .requestStop => ((sr_session_stop s).2, [])
  | .sourceAdd fd ev t cb cbd now => ((sr_session_source_add s fd ev t cb cbd now).2, [])
  | .sourceRemove po => ((sr_session_source_remove_internal s po).2, [])

/-- Apply a sequence of public operations, concatenating their events. -/
def applySessionOps (s : Session) : List SessionOp → Session × List Ev
  | [] => (s, [])
  | op :: rest =>
    let r := applySessionOp s op
    let r' := applySessionOps r.1 rest
    (r'.1, r.2 ++ r'.2)

/-! ### Ghost-identity invariants of the dispatch pass (claim C2) -/

/-- Well-formed ghost identities: registry sids are pairwise distinct and
below the next fresh id. -/
def SidInv (s : Session) : Prop :=
  (s.sources.map Source.sid).Nodup ∧ ∀ src ∈ s.sources, src.sid < s.nextSid

/-- Identity x is blocked from firing: it is stale (below the fresh-id
counter) and any registry entry still carrying it is already triggered. -/
def Blocked (s : Session) (x : Nat) : Prop :=
  x < s.nextSid ∧ ∀ src ∈ s.sources, src.sid = x → src.triggered = true

/-- What one session mutation preserves: well-formedness, monotone fresh
ids, and blockedness of every identity. -/
def StepPres (s s' : Session) : Prop :=
  (SidInv s → SidInv s') ∧ s.nextSid ≤ s'.nextSid ∧ ∀ x, Blocked s x → Blocked s' x

theorem stepPres_refl (s : Session) : StepPres s s :=
  ⟨id, le_refl _, fun _ h => h⟩

theorem stepPres_trans {s s' s'' : Session} (h1 : StepPres s s')
    (h2 : StepPres s' s'') : StepPres s s'' :=
  ⟨fun h => h2.1 (h1.1 h), le_trans h1.2.1 h2.2.1,
   fun x hx => h2.2.2 x (h1.2.2 x hx)⟩

theorem stepPres_of_same_sources {s s' : Session}
    (hsrc : s'.sources = s.sources) (hnext : s'.nextSid = s.nextSid) :
    StepPres s s' := by
  refine ⟨fun h => ?_, by rw [hnext], fun x hx => ?_⟩
  · exact ⟨by rw [hsrc]; exact h.1, by rw [hsrc, hnext]; exact h.2⟩
  · exact ⟨by rw [hnext]; exact hx.1, by rw [hsrc]; exact hx.2⟩

theorem add_internal_stepPres (s : Session) (pfds : Option (List GPollFD))
    (n : Nat) (t : Int) (cb : Option Nat) (cbd po now : Int) :
    StepPres s (sr_session_source_add_internal s pfds n t cb cbd po now).2 := by
  cases cb with
  | none => exact stepPres_refl s
  | some cbv =>
    simp only [sr_session_source_add_internal]
    by_cases h1 : pfds = none ∧ n ≠ 0
    · simp only [if_pos h1]; exact stepPres_refl s
    · rw [if_neg h1]
      by_cases h2 : s.sources.any (fun src => src.poll_object == po)
      · simp only [if_pos h2]; exact stepPres_refl s
      · simp only [if_neg h2]
        refine ⟨fun hs => ⟨?_, ?_⟩, by simp, fun x hx =>
          ⟨Nat.lt_succ_of_lt hx.1, ?_⟩⟩
        · rw [List.map_append, List.nodup_append]
          refine ⟨hs.1, List.nodup_singleton _, ?_⟩
          intro a ha hb
          simp only [List.map_cons, List.map_nil, List.mem_singleton] at hb
          subst hb
          rcases List.mem_map.mp ha with ⟨b, hbmem, hbeq⟩
          have := hs.2 b hbmem
          omega
        · intro b hb
          rcases List.mem_append.mp hb with hold | hnew
          · exact Nat.lt_succ_of_lt (hs.2 b hold)
          · simp only [List.mem_singleton] at hnew
            subst hnew
            exact Nat.lt_succ_self _
        · intro b hb hbx
          rcases List.mem_append.mp hb with hold | hnew
          · exact hx.2 b hold hbx
          · simp only [List.mem_singleton] at hnew
            subst hnew
            have hlt : x < s.nextSid := hx.1
            exact absurd (show s.nextSid = x from hbx) (by omega)

theorem source_add_stepPres (s : Session) (fd : Int) (ev : Nat) (t : Int)
    (cb : Option Nat) (cbd now : Int) :
    StepPres s (sr_session_source_add s fd ev t cb cbd now).2 := by
  rw [sr_session_source_add]
  by_cases h1 : fd < 0 ∧ t < 0
  · simp only [if_pos h1]; exact stepPres_refl s
  · rw [if_neg h1]; exact add_internal_stepPres _ _ _ _ _ _ _ _

theorem remove_internal_stepPres (s : Session) (po : Int) :
    StepPres s (sr_session_source_remove_internal s po).2 := by
  cases hfind : findSource s.sources po with
  | none =>
    simp only [sr_session_source_remove_internal, hfind]
    exact stepPres_refl s
  | some ik =>
    obtain ⟨i, k⟩ := ik
    simp only [sr_session_source_remove_internal, hfind]
    have hsub : List.Sublist (s.sources.eraseIdx i) s.sources :=
      List.eraseIdx_sublist _ _
    refine ⟨fun hs => ⟨?_, ?_⟩, le_refl _, fun x hx => ⟨hx.1, ?_⟩⟩
    · exact List.Nodup.sublist (hsub.map Source.sid) hs.1
    · intro b hb
      exact hs.2 b (hsub.subset hb)
    · intro b hb hbx
      exact hx.2 b (hsub.subset hb) hbx

theorem check_aborted_stepPres (s : Session) :
    StepPres s (sr_session_check_aborted s).2.1 := by
  rw [sr_session_check_aborted]
  by_cases h : s.abort_session
  · simp only [if_pos h]
    exact stepPres_of_same_sources rfl rfl
  · simp only [if_neg h]
    exact stepPres_refl s

theorem applyCbOp_stepPres (s : Session) (op : CbOp) :
    StepPres s (applyCbOp s op) := by
  cases op with
  | sourceAdd fd ev t cb cbd now => exact source_add_stepPres _ _ _ _ _ _ _
  | sourceAddInternal pf n t cb cbd po now => exact add_internal_stepPres _ _ _ _ _ _ _ _
  | sourceRemove po => exact remove_internal_stepPres _ _
  | requestStop => exact stepPres_of_same_sources rfl rfl

theorem applyCbOps_stepPres (s : Session) (ops : List CbOp) :
    StepPres s (applyCbOps s ops) := by
  induction ops generalizing s with
  | nil => exact stepPres_refl s
  | cons op rest ih =>
    rw [applyCbOps, List.foldl_cons]
    exact stepPres_trans (applyCbOp_stepPres s op) (ih (applyCbOp s op))

/-- Replacing an element by one with the same image leaves the mapped list
unchanged. -/
theorem map_set_same {α β : Type} (f : α → β) (d : α) :
    ∀ (l : List α) (i : Nat) (a : α), i < l.length → f a = f (l.getD i d) →
      (l.set i a).map f = l.map f
  | [], i, a, hi, _ => by simp at hi
  | b :: rest, 0, a, _, hf => by
    simp only [List.getD] at hf
    simp [hf]
  | b :: rest, i + 1, a, hi, hf => by
    simp only [List.set, List.map_cons]
    rw [map_set_same f d rest i a (by simpa using hi) (by simpa using hf)]

/-- In a list whose images under f are pairwise distinct, the only member
of l.set i a with the image of a is a itself (given that a shares its
image with the replaced slot). -/
theorem mem_set_eq_of_nodup_map {α β : Type} (f : α → β) (d : α) (l : List α)
    (hnd : (l.map f).Nodup) (i : Nat) (hi : i < l.length) (a : α)
    (ha : f a = f (l.getD i d)) :
    ∀ b ∈ l.set i a, f b = f a → b = a := by
  intro b hb hfb
  rcases List.mem_iff_getElem.mp hb with ⟨j, hj, hbj⟩
  rw [List.getElem_set] at hbj
  by_cases hij : i = j
  · rw [if_pos hij] at hbj; exact hbj.symm
  · rw [if_neg hij] at hbj
    exfalso
    have hjl : j < l.length := by simpa using hj
    have hmi : i < (l.map f).length := by simpa using hi
    have hmj : j < (l.map f).length := by simpa using hjl
    have h1 : (l.map f).get ⟨i, hmi⟩ = (l.map f).get ⟨j, hmj⟩ := by
      rw [List.get_eq_getElem, List.get_eq_getElem, List.getElem_map,
        List.getElem_map, hbj, hfb, ha, List.getD_eq_getElem l d hi]
    exact hij (congrArg Fin.val (hnd.get_inj_iff.mp h1))

theorem callEvents_cons_call (ce : CallEvent) (l : List Ev) :
    callEvents (Ev.call ce :: l) = ce :: callEvents l := rfl

theorem callEvents_append (l l' : List Ev) :
    callEvents (l ++ l') = callEvents l ++ callEvents l' :=
  List.filterMap_append _ _ _

theorem callEvents_check_aborted (s : Session) :
    callEvents (sr_session_check_aborted s).2.2 = [] := by
  rw [sr_session_check_aborted]
  by_cases h : s.abort_session
  · simp only [if_pos h]; rfl
  · simp only [if_neg h]; rfl

/-- What one firing does to the session: well-formedness survives, the
fired source's identity becomes blocked, previously blocked identities
stay blocked, and no call event is emitted (only a possible stop event). -/
theorem dispatchStep_spec (cbs : CbOracle) (stop_time : Int) (stopped : Bool)
    (s : Session) (i : Nat) (fd : Int) (revents : Nat)
    (hi : i < s.sources.length) (hs : SidInv s)
    (htr : (s.sources.getD i default).triggered = false) :
    SidInv (dispatchStep cbs stop_time stopped s i fd revents).2.1 ∧
    Blocked (dispatchStep cbs stop_time stopped s i fd revents).2.1
      ((s.sources.getD i default).sid) ∧
    (∀ x, Blocked s x →
      Blocked (dispatchStep cbs stop_time stopped s i fd revents).2.1 x) ∧
    callEvents (dispatchStep cbs stop_time stopped s i fd revents).2.2 = [] := by
  have hsrc_mem : s.sources.getD i default ∈ s.sources := by
    rw [List.getD_eq_getElem _ _ hi]
    exact List.getElem_mem hi
  simp only [dispatchStep]
  set source := s.sources.getD i default with hsource
  set s1 : Session :=
    { s with sources := s.sources.set i (fireSource stop_time source) } with hs1def
  set cbres := cbs source.cb fd revents source.cb_data with hcbresdef
  set s2 := applyCbOps s1 cbres.2 with hs2def
  set s3 := (if cbres.1 = true then s2
    else (sr_session_source_remove_internal s2 source.poll_object).2) with hs3def
  have hmap : (s.sources.set i (fireSource stop_time source)).map Source.sid
      = s.sources.map Source.sid :=
    map_set_same Source.sid default s.sources i _ hi rfl
  have hs1 : SidInv s1 := by
    constructor
    · show ((s.sources.set i (fireSource stop_time source)).map Source.sid).Nodup
      rw [hmap]
      exact hs.1
    · intro b hb
      rcases List.mem_or_eq_of_mem_set hb with hold | hnew
      · exact hs.2 b hold
      · subst hnew
        exact hs.2 source hsrc_mem
  have hb1 : Blocked s1 source.sid := by
    refine ⟨hs.2 _ hsrc_mem, fun b hb hbx => ?_⟩
    have hb' := mem_set_eq_of_nodup_map Source.sid default s.sources hs.1 i hi
      (fireSource stop_time source) rfl b hb hbx
    rw [hb']
    rfl
  have hpres1 : ∀ x, Blocked s x → Blocked s1 x := by
    intro x hx
    refine ⟨hx.1, fun b hb hbx => ?_⟩
    rcases List.mem_or_eq_of_mem_set hb with hold | hnew
    · exact hx.2 b hold hbx
    · subst hnew
      rfl
  have p2 : StepPres s1 s2 := applyCbOps_stepPres s1 cbres.2
  have p3 : StepPres s2 s3 := by
    by_cases hc : cbres.1 = true
    · rw [hs3def, if_pos hc]; exact stepPres_refl s2
    · rw [hs3def, if_neg hc]; exact remove_internal_stepPres _ _
  have p4 : StepPres s3
      (if stopped = true then (true, s3, ([] : List Ev))
       else sr_session_check_aborted s3).2.1 := by
    by_cases hst : stopped = true
    · simp only [if_pos hst]; exact stepPres_refl s3
    · simp only [if_neg hst]; exact check_aborted_stepPres s3
  have pall : StepPres s1
      (if stopped = true then (true, s3, ([] : List Ev))
       else sr_session_check_aborted s3).2.1 :=
    stepPres_trans (stepPres_trans p2 p3) p4
  have hev : callEvents
      (if stopped = true then (true, s3, ([] : List Ev))
       else sr_session_check_aborted s3).2.2 = [] := by
    by_cases hst : stopped = true
    · simp only [if_pos hst]; rfl
    · simp only [if_neg hst]; exact callEvents_check_aborted s3
  exact ⟨pall.1 hs1, pall.2.2 _ hb1, fun x hx => pall.2.2 x (hpres1 x hx), hev⟩

/-- The dispatch-pass invariant: from a well-formed session, every
recorded callback invocation carries triggered = true, the ghost
identities of the recorded invocations are pairwise distinct, and no
blocked identity is ever recorded. -/
theorem dispatchLoop_inv (cbs : CbOracle) (pollRet stop_time usb_due : Int) :
    ∀ (fuel i fd_index : Nat) (ta stopped : Bool) (s : Session), SidInv s →
      SidInv (dispatchLoop cbs pollRet stop_time usb_due fuel i fd_index
        ta stopped s).1 ∧
      (∀ c ∈ callEvents (dispatchLoop cbs pollRet stop_time usb_due fuel i
          fd_index ta stopped s).2.2, c.triggeredAtCall = true) ∧
      ((callEvents (dispatchLoop cbs pollRet stop_time usb_due fuel i fd_index
          ta stopped s).2.2).map CallEvent.sid).Nodup ∧
      (∀ x, Blocked s x →
        x ∉ (callEvents (dispatchLoop cbs pollRet stop_time usb_due fuel i
          fd_index ta stopped s).2.2).map CallEvent.sid) := by
  intro fuel
  induction fuel with
  | zero =>
    intro i fdi ta stopped s hs
    exact ⟨hs, by simp [dispatchLoop, callEvents], by simp [dispatchLoop, callEvents],
      by simp [dispatchLoop, callEvents]⟩
  | succ fuel ih =>
    intro i fdi ta stopped s hs
    by_cases hi : i < s.sources.length
    · have key : ∀ (fd : Int) (rev : Nat),
          (s.sources.getD i default).triggered = false →
          SidInv (dispatchLoop cbs pollRet stop_time usb_due fuel 1 0 true
            (dispatchStep cbs stop_time stopped s i fd rev).1
            (dispatchStep cbs stop_time stopped s i fd rev).2.1).1 ∧
          (∀ c ∈ callEvents (Ev.call (fireRecord stop_time usb_due s i fd rev) ::
              ((dispatchStep cbs stop_time stopped s i fd rev).2.2 ++
               (dispatchLoop cbs pollRet stop_time usb_due fuel 1 0 true
                 (dispatchStep cbs stop_time stopped s i fd rev).1
                 (dispatchStep cbs stop_time stopped s i fd rev).2.1).2.2)),
            c.triggeredAtCall = true) ∧
          ((callEvents (Ev.call (fireRecord stop_time usb_due s i fd rev) ::
              ((dispatchStep cbs stop_time stopped s i fd rev).2.2 ++
               (dispatchLoop cbs pollRet stop_time usb_due fuel 1 0 true
                 (dispatchStep cbs stop_time stopped s i fd rev).1
                 (dispatchStep cbs stop_time stopped s i fd rev).2.1).2.2))).map
            CallEvent.sid).Nodup ∧
          (∀ x, Blocked s x →
            x ∉ (callEvents (Ev.call (fireRecord stop_time usb_due s i fd rev) ::
              ((dispatchStep cbs stop_time stopped s i fd rev).2.2 ++
               (dispatchLoop cbs pollRet stop_time usb_due fuel 1 0 true
                 (dispatchStep cbs stop_time stopped s i fd rev).1
                 (dispatchStep cbs stop_time stopped s i fd rev).2.1).2.2))).map
              CallEvent.sid) := by
        intro fd rev htr'
        have hsrc_mem : s.sources.getD i default ∈ s.sources := by
          rw [List.getD_eq_getElem _ _ hi]
          exact List.getElem_mem hi
        have hstep := dispatchStep_spec cbs stop_time stopped s i fd rev hi hs htr'
        have hrest := ih 1 0 true (dispatchStep cbs stop_time stopped s i fd rev).1
          (dispatchStep cbs stop_time stopped s i fd rev).2.1 hstep.1
        have hce : callEvents (Ev.call (fireRecord stop_time usb_due s i fd rev) ::
            ((dispatchStep cbs stop_time stopped s i fd rev).2.2 ++
             (dispatchLoop cbs pollRet stop_time usb_due fuel 1 0 true
               (dispatchStep cbs stop_time stopped s i fd rev).1
               (dispatchStep cbs stop_time stopped s i fd rev).2.1).2.2))
            = fireRecord stop_time usb_due s i fd rev ::
              callEvents (dispatchLoop cbs pollRet stop_time usb_due fuel 1 0 true
                (dispatchStep cbs stop_time stopped s i fd rev).1
                (dispatchStep cbs stop_time stopped s i fd rev).2.1).2.2 := by
          rw [callEvents_cons_call, callEvents_append, hstep.2.2.2, List.nil_append]
        have hsid : (fireRecord stop_time usb_due s i fd rev).sid
            = (s.sources.getD i default).sid := rfl
        refine ⟨hrest.1, ?_, ?_, ?_⟩
        · rw [hce]
          intro c hc
          rcases List.mem_cons.mp hc with hceq | hcrest
          · rw [hceq]
            rfl
          · exact hrest.2.1 c hcrest
        · rw [hce, List.map_cons]
          rw [List.nodup_cons]
          refine ⟨?_, hrest.2.2.1⟩
          rw [hsid]
          exact hrest.2.2.2 _ hstep.2.1
        · rw [hce, List.map_cons]
          intro x hx hmem
          rcases List.mem_cons.mp hmem with hxeq | hxrest
          · rw [hsid] at hxeq
            have := hx.2 _ hsrc_mem hxeq.symm
            rw [htr'] at this
            exact Bool.false_ne_true this
          · exact hrest.2.2.2 x (hstep.2.2.1 x hx) hxrest
      simp only [dispatchLoop, if_pos hi]
      by_cases htr : (s.sources.getD i default).triggered = true
      · simp only [if_pos htr]
        exact ih (i + 1) _ ta stopped s hs
      · simp only [if_neg htr]
        have htr' : (s.sources.getD i default).triggered = false := by
          revert htr
          cases (s.sources.getD i default).triggered <;> simp
        by_cases hskip : pollRet > 0 ∧
            (aggregateFd s.pollfds fdi (s.sources.getD i default).num_fds
              (s.sources.getD i default).poll_object).2 = 0
        · simp only [if_pos hskip]
          exact ih (i + 1) _ ta stopped s hs
        · simp only [if_neg hskip]
          by_cases hple : pollRet ≤ 0
          · simp only [if_pos hple]
            by_cases hw : stop_time <
                (if (decide (usb_due < (s.sources.getD i default).due ∧
                    (s.sources.getD i default).poll_object = s.ctx.libusb_ctx)) = true
                 then usb_due else (s.sources.getD i default).due)
            · rw [if_pos (And.intro trivial hw)]
              exact ih (i + 1) _ ta stopped s hs
            · rw [if_neg (fun hcon => hw hcon.2)]
              exact key _ _ htr'
          · simp only [if_neg hple]
            by_cases hcond : (aggregateFd s.pollfds fdi
                  (s.sources.getD i default).num_fds
                  (s.sources.getD i default).poll_object).2 = 0 ∧
                stop_time <
                (if (decide (usb_due < (s.sources.getD i default).due ∧
                    (s.sources.getD i default).poll_object = s.ctx.libusb_ctx)) = true
                 then usb_due else (s.sources.getD i default).due)
            · rw [if_pos hcond]
              exact ih (i + 1) _ ta stopped s hs
            · rw [if_neg hcond]
              exact key _ _ htr'
    · simp only [dispatchLoop, if_neg hi]
      exact ⟨hs, by simp [callEvents], by simp [callEvents], by simp [callEvents]⟩

theorem callEvents_cons_poll (a b : Int) (l : List Ev) :
    callEvents (Ev.pollCall a b :: l) = callEvents l := rfl

theorem resetTriggered_sidInv (s : Session) (hs : SidInv s) :
    SidInv (resetTriggered s) := by
  constructor
  · show ((s.sources.map (fun src => { src with triggered := false })).map
        Source.sid).Nodup
    rw [List.map_map]
    exact hs.1
  · intro b hb
    rcases List.mem_map.mp hb with ⟨a, ha, haeq⟩
    subst haeq
    exact hs.2 a ha

/-- Claim C2: in one event-loop iteration, every invoked source callback
has its source's triggered flag set at the moment of the call, and no
registry entry (tracked by its ghost identity) is invoked twice, even
though the dispatch pass restarts after every callback. -/
theorem C2_iteration_callbacks_once (fuel : Nat) (cbs : CbOracle)
    (o : IterOracle) (s : Session) (hs : SidInv s) :
    (∀ c ∈ callEvents (sr_session_iteration fuel cbs o s).2.2,
      c.triggeredAtCall = true) ∧
    ((callEvents (sr_session_iteration fuel cbs o s).2.2).map
      CallEvent.sid).Nodup := by
  have hs1 : SidInv { resetTriggered s with
      pollfds := pollWrite (resetTriggered s).pollfds o.pollRevents } := by
    have h0 := resetTriggered_sidInv s hs
    exact ⟨h0.1, h0.2⟩
  simp only [sr_session_iteration]
  by_cases h0 : s.sources.length = 0
  · simp only [if_pos h0, callEvents_check_aborted]
    exact ⟨by simp, by simp⟩
  · simp only [if_neg h0]
    by_cases h1 : (resetTriggered s).ctx.usb_source_present = true ∧
        o.usbHint = UsbHint.err
    · simp only [if_pos h1]
      exact ⟨by simp [callEvents], by simp [callEvents]⟩
    · simp only [if_neg h1]
      by_cases h2 : o.pollRet < 0 ∧ o.pollEINTR = false
      · simp only [if_pos h2]
        exact ⟨by simp [callEvents], by simp [callEvents]⟩
      · simp only [if_neg h2]
        have hd := dispatchLoop_inv cbs o.pollRet o.stop_time
          (usbDueOf (resetTriggered s).ctx.usb_source_present o.usbHint o.start_time)
          fuel 0 0 false false
          { resetTriggered s with
            pollfds := pollWrite (resetTriggered s).pollfds o.pollRevents } hs1
        split
        · rw [callEvents_cons_poll]
          exact ⟨hd.2.1, hd.2.2.1⟩
        · rw [callEvents_cons_poll, callEvents_append, callEvents_check_aborted,
            List.append_nil]
          exact ⟨hd.2.1, hd.2.2.1⟩

/-- Shared callback oracle for concrete runs: every callback returns true
and performs no mutation. -/
def wCbs : CbOracle := fun _ _ _ _ => (true, [])

/-- Oracle of the concrete timer iteration: the timer is overdue at
stop_time, no USB, poll timed out. -/
def wIterO : IterOracle :=
  { start_time := 0, stop_time := 20000, usbHint := .noTimeout, pollRet := 0,
    pollEINTR := false, pollRevents := fun _ => 0 }

/-- A 10 ms timer source that is due. -/
def wTimerSrc : Source :=
  { timeout := 10000, due := 10000, cb := 0, cb_data := 0, poll_object := -1,
    num_fds := 0, triggered := false, sid := 0, fds := [] }

/-- Session holding the timer source. -/
def wSessIter : Session :=
  { sr_session_new wCtx with sources := [wTimerSrc], nextSid := 1 }

theorem C2_iteration_callbacks_once_witness :
    (∀ c ∈ callEvents (sr_session_iteration 3 wCbs wIterO wSessIter).2.2,
      c.triggeredAtCall = true) ∧
    ((callEvents (sr_session_iteration 3 wCbs wIterO wSessIter).2.2).map
      CallEvent.sid).Nodup :=
  C2_iteration_callbacks_once 3 wCbs wIterO wSessIter ⟨by decide, by decide⟩

theorem dispatchStep_no_call_events (cbs : CbOracle) (stop_time : Int)
    (stopped : Bool) (s : Session) (i : Nat) (fd : Int) (rev : Nat) :
    callEvents (dispatchStep cbs stop_time stopped s i fd rev).2.2 = [] := by
  simp only [dispatchStep]
  by_cases hst : stopped = true
  · simp only [if_pos hst]
    rfl
  · simp only [if_neg hst]
    exact callEvents_check_aborted _

/-- The guard facts true of every recorded invocation: with poll events
present a zero revents value is never passed to a callback, a zero
revents invocation can only come from a timed-out poll with the effective
deadline reached, and without the USB adjustment the effective deadline
is the source's own. -/
theorem dispatchLoop_fire_guards (cbs : CbOracle) (pollRet stop_time usb_due : Int) :
    ∀ (fuel i fd_index : Nat) (ta stopped : Bool) (s : Session),
      ∀ c ∈ callEvents (dispatchLoop cbs pollRet stop_time usb_due fuel i
          fd_index ta stopped s).2.2,
        (pollRet > 0 → c.revents ≠ 0) ∧
        (c.revents = 0 → pollRet ≤ 0 ∧ c.effectiveDue ≤ stop_time) ∧
        (c.usbAdjusted = false → c.effectiveDue = c.dueBefore) := by
  intro fuel
  induction fuel with
  | zero =>
    intro i fdi ta stopped s c hc
    simp [dispatchLoop, callEvents] at hc
  | succ fuel ih =>
    intro i fdi ta stopped s
    by_cases hi : i < s.sources.length
    · have key : ∀ (fd : Int) (rev : Nat),
          (pollRet > 0 → rev ≠ 0) →
          (rev = 0 → pollRet ≤ 0 ∧
            (if (decide (usb_due < (s.sources.getD i default).due ∧
                (s.sources.getD i default).poll_object = s.ctx.libusb_ctx)) = true
             then usb_due else (s.sources.getD i default).due) ≤ stop_time) →
          ∀ c ∈ callEvents (Ev.call (fireRecord stop_time usb_due s i fd rev) ::
              ((dispatchStep cbs stop_time stopped s i fd rev).2.2 ++
               (dispatchLoop cbs pollRet stop_time usb_due fuel 1 0 true
                 (dispatchStep cbs stop_time stopped s i fd rev).1
                 (dispatchStep cbs stop_time stopped s i fd rev).2.1).2.2)),
            (pollRet > 0 → c.revents ≠ 0) ∧
            (c.revents = 0 → pollRet ≤ 0 ∧ c.effectiveDue ≤ stop_time) ∧
            (c.usbAdjusted = false → c.effectiveDue = c.dueBefore) := by
        intro fd rev hpos hzero c hc
        rw [callEvents_cons_call, callEvents_append, dispatchStep_no_call_events,
          List.nil_append] at hc
        rcases List.mem_cons.mp hc with hceq | hcrest
        · subst hceq
          refine ⟨hpos, hzero, ?_⟩
          intro hfalse
          show (if (fireRecord stop_time usb_due s i fd rev).usbAdjusted = true
              then usb_due else (s.sources.getD i default).due)
            = (s.sources.getD i default).due
          rw [hfalse]
          simp
        · exact ih 1 0 true _ _ c hcrest
      simp only [dispatchLoop, if_pos hi]
      by_cases htr : (s.sources.getD i default).triggered = true
      · simp only [if_pos htr]
        exact ih (i + 1) _ ta stopped s
      · simp only [if_neg htr]
        by_cases hskip : pollRet > 0 ∧
            (aggregateFd s.pollfds fdi (s.sources.getD i default).num_fds
              (s.sources.getD i default).poll_object).2 = 0
        · simp only [if_pos hskip]
          exact ih (i + 1) _ ta stopped s
        · simp only [if_neg hskip]
          by_cases hple : pollRet ≤ 0
          · simp only [if_pos hple]
            by_cases hw : stop_time <
                (if (decide (usb_due < (s.sources.getD i default).due ∧
                    (s.sources.getD i default).poll_object = s.ctx.libusb_ctx)) = true
                 then usb_due else (s.sources.getD i default).due)
            · rw [if_pos (And.intro trivial hw)]
              exact ih (i + 1) _ ta stopped s
            · rw [if_neg (fun hcon => hw hcon.2)]
              exact key _ _ (fun hgt => by omega) (fun _ => ⟨hple, by omega⟩)
          · simp only [if_neg hple]
            by_cases hcond : (aggregateFd s.pollfds fdi
                  (s.sources.getD i default).num_fds
                  (s.sources.getD i default).poll_object).2 = 0 ∧
                stop_time <
                (if (decide (usb_due < (s.sources.getD i default).due ∧
                    (s.sources.getD i default).poll_object = s.ctx.libusb_ctx)) = true
                 then usb_due else (s.sources.getD i default).due)
            · rw [if_pos hcond]
              exact ih (i + 1) _ ta stopped s
            · rw [if_neg hcond]
              exact key _ _ (fun hgt h0 => hskip ⟨hgt, h0⟩)
                (fun h0 => (hskip ⟨by omega, h0⟩).elim)
    · intro c hc
      simp [dispatchLoop, if_neg hi, callEvents] at hc

/-- Claim C7, amended: in any iteration, (a) when poll reported events
globally, every invoked callback saw a nonzero aggregated revents (a
source with zero aggregate is skipped for that pass); and (b) a source
with a negative timeout and deadline INT64_MAX whose aggregated revents is
zero is never invoked, except when the USB-backend deadline adjustment
fired for it (the libusb timeout hint lowered its effective deadline). -/
theorem C7_pure_io_skip_amended (fuel : Nat) (cbs : CbOracle) (o : IterOracle)
    (s : Session) :
    ∀ c ∈ callEvents (sr_session_iteration fuel cbs o s).2.2,
      (o.pollRet > 0 → c.revents ≠ 0) ∧
      (o.stop_time < INT64_MAX → c.timeout < 0 → c.dueBefore = INT64_MAX →
        c.revents = 0 → c.usbAdjusted = true) := by
  have main : ∀ (usbdue : Int) (s1 : Session),
      ∀ c ∈ callEvents (dispatchLoop cbs o.pollRet o.stop_time usbdue fuel 0 0
          false false s1).2.2,
        (o.pollRet > 0 → c.revents ≠ 0) ∧
        (o.stop_time < INT64_MAX → c.timeout < 0 → c.dueBefore = INT64_MAX →
          c.revents = 0 → c.usbAdjusted = true) := by
    intro usbdue s1 c hc
    have hg := dispatchLoop_fire_guards cbs o.pollRet o.stop_time usbdue fuel
      0 0 false false s1 c hc
    refine ⟨hg.1, ?_⟩
    intro hst _ hdue h0
    rcases hg.2.1 h0 with ⟨_, heff⟩
    by_cases hadj : c.usbAdjusted = true
    · exact hadj
    · exfalso
      have hfalse : c.usbAdjusted = false := by
        revert hadj
        cases c.usbAdjusted <;> simp
      have := hg.2.2 hfalse
      rw [this, hdue] at heff
      omega
  simp only [sr_session_iteration]
  by_cases h0 : s.sources.length = 0
  · simp only [if_pos h0, callEvents_check_aborted]
    intro c hc
    simp at hc
  · simp only [if_neg h0]
    by_cases h1 : (resetTriggered s).ctx.usb_source_present = true ∧
        o.usbHint = UsbHint.err
    · simp only [if_pos h1]
      intro c hc
      simp [callEvents] at hc
    · simp only [if_neg h1]
      by_cases h2 : o.pollRet < 0 ∧ o.pollEINTR = false
      · simp only [if_pos h2]
        intro c hc
        simp [callEvents] at hc
      · simp only [if_neg h2]
        split
        · rw [callEvents_cons_poll]
          exact main _ _
        · rw [callEvents_cons_poll, callEvents_append, callEvents_check_aborted,
            List.append_nil]
          exact main _ _

/-- Context with a USB backend present, its libusb handle being 42. -/
def wCtxUsb : SrContext := { libusb_ctx := 42, usb_source_present := true }

/-- The USB backend source: pure I/O (timeout -1, due INT64_MAX), keyed by
the libusb context, owning no descriptors in this run. -/
def wUsbSrc : Source :=
  { timeout := -1, due := INT64_MAX, cb := 0, cb_data := 0, poll_object := 42,
    num_fds := 0, triggered := false, sid := 0, fds := [] }

/-- Session holding only the USB source. -/
def wSessUsb : Session :=
  { sr_session_new wCtxUsb with sources := [wUsbSrc], nextSid := 1 }

/-- Oracle for the USB iteration: libusb reports a timeout of 0 us, poll
times out immediately, the clock does not advance. -/
def wIterOUsb : IterOracle :=
  { start_time := 100, stop_time := 100, usbHint := .timeout 0, pollRet := 0,
    pollEINTR := false, pollRevents := fun _ => 0 }

/-- Claim C7 as stated is false on the code: in this concrete iteration a
source with timeout_us < 0 and due = INT64_MAX is invoked with aggregated
revents 0 (it is the USB backend source, fired because the libusb timeout
hint lowered its effective deadline to stop_time). -/
theorem C7_pure_io_source_fires_counterexample :
    ∃ c ∈ callEvents (sr_session_iteration 3 wCbs wIterOUsb wSessUsb).2.2,
      c.timeout < 0 ∧ c.dueBefore = INT64_MAX ∧ c.revents = 0 := by
  decide

/-! ### The running flag across operations (claims C4, C8) -/

/-- How one event moves the running flag: run entering its loop sets it,
a completed synchronous stop clears it, nothing else touches it. -/
def runningUpd (b : Bool) (e : Ev) : Bool :=
  match e with
  | .runEnter => true
  | .stopSync => false
  | _ => b

/-- The running flag dictated by an event history starting from a fresh
session: true exactly when a runEnter occurred with no stopSync after. -/
def runningSpec (evs : List Ev) : Bool := evs.foldl runningUpd false

/-- The flag the original claim predicts: true when a successful start
occurred with no completed stop_sync after it. -/
def startedSpec (evs : List Ev) : Bool :=
  evs.foldl (fun b e =>
    match e with
    | .startCall r => if r = SR_OK then true else b
    | .stopSync => false
    | _ => b) false

/-- The poll invocations recorded in an event history. -/
def pollEvents (evs : List Ev) : List Ev :=
  evs.filter (fun e => match e with | .pollCall _ _ => true | _ => false)

theorem add_internal_running (s : Session) (pfds : Option (List GPollFD))
    (n : Nat) (t : Int) (cb : Option Nat) (cbd po now : Int) :
    (sr_session_source_add_internal s pfds n t cb cbd po now).2.running
      = s.running := by
  cases cb with
  | none => rfl
  | some cbv =>
    simp only [sr_session_source_add_internal]
    by_cases h1 : pfds = none ∧ n ≠ 0
    · simp only [if_pos h1]
    · rw [if_neg h1]
      by_cases h2 : s.sources.any (fun src => src.poll_object == po)
      · simp only [if_pos h2]
      · simp only [if_neg h2]

theorem source_add_running (s : Session) (fd : Int) (ev : Nat) (t : Int)
    (cb : Option Nat) (cbd now : Int) :
    (sr_session_source_add s fd ev t cb cbd now).2.running = s.running := by
  rw [sr_session_source_add]
  by_cases h1 : fd < 0 ∧ t < 0
  · simp only [if_pos h1]
  · rw [if_neg h1]
    exact add_internal_running _ _ _ _ _ _ _ _

theorem remove_internal_running (s : Session) (po : Int) :
    (sr_session_source_remove_internal s po).2.running = s.running := by
  cases hfind : findSource s.sources po with
  | none => simp only [sr_session_source_remove_internal, hfind]
  | some ik =>
    obtain ⟨i, k⟩ := ik
    simp only [sr_session_source_remove_internal, hfind]

theorem applyCbOps_running (s : Session) (ops : List CbOp) :
    (applyCbOps s ops).running = s.running := by
  induction ops generalizing s with
  | nil => rfl
  | cons op rest ih =>
    rw [applyCbOps, List.foldl_cons]
    rw [show (List.foldl applyCbOp (applyCbOp s op) rest)
        = applyCbOps (applyCbOp s op) rest from rfl]
    rw [ih (applyCbOp s op)]
    cases op with
    | sourceAdd fd ev t cb cbd now => exact source_add_running _ _ _ _ _ _ _
    | sourceAddInternal pf n t cb cbd po now => exact add_internal_running _ _ _ _ _ _ _ _
    | sourceRemove po => exact remove_internal_running _ _
    | requestStop => rfl

theorem check_aborted_running (s : Session) :
    (sr_session_check_aborted s).2.1.running
      = (sr_session_check_aborted s).2.2.foldl runningUpd s.running := by
  rw [sr_session_check_aborted]
  by_cases h : s.abort_session
  · simp only [if_pos h]
    rfl
  · simp only [if_neg h]
    rfl

theorem dispatchStep_running (cbs : CbOracle) (stop_time : Int) (stopped : Bool)
    (s : Session) (i : Nat) (fd : Int) (rev : Nat) :
    (dispatchStep cbs stop_time stopped s i fd rev).2.1.running
      = (dispatchStep cbs stop_time stopped s i fd rev).2.2.foldl runningUpd
          s.running := by
  simp only [dispatchStep]
  set source := s.sources.getD i default with hsource
  set s1 : Session :=
    { s with sources := s.sources.set i (fireSource stop_time source) } with hs1def
  set cbres := cbs source.cb fd rev source.cb_data with hcbresdef
  set s2 := applyCbOps s1 cbres.2 with hs2def
  set s3 := (if cbres.1 = true then s2
    else (sr_session_source_remove_internal s2 source.poll_object).2) with hs3def
  have h2 : s2.running = s.running := by
    rw [hs2def, applyCbOps_running]
  have h3 : s3.running = s.running := by
    by_cases hc : cbres.1 = true
    · rw [hs3def, if_pos hc]; exact h2
    · rw [hs3def, if_neg hc, remove_internal_running]; exact h2
  by_cases hst : stopped = true
  · simp only [if_pos hst]
    exact h3
  · simp only [if_neg hst]
    rw [check_aborted_running, h3]

theorem dispatchLoop_running (cbs : CbOracle) (pollRet stop_time usb_due : Int) :
    ∀ (fuel i fd_index : Nat) (ta stopped : Bool) (s : Session),
      (dispatchLoop cbs pollRet stop_time usb_due fuel i fd_index ta
        stopped s).1.running
      = (dispatchLoop cbs pollRet stop_time usb_due fuel i fd_index ta
          stopped s).2.2.foldl runningUpd s.running := by
  intro fuel
  induction fuel with
  | zero => intro i fdi ta stopped s; rfl
  | succ fuel ih =>
    intro i fdi ta stopped s
    by_cases hi : i < s.sources.length
    · have key : ∀ (fd : Int) (rev : Nat),
          (dispatchLoop cbs pollRet stop_time usb_due fuel 1 0 true
            (dispatchStep cbs stop_time stopped s i fd rev).1
            (dispatchStep cbs stop_time stopped s i fd rev).2.1).1.running
          = (Ev.call (fireRecord stop_time usb_due s i fd rev) ::
              ((dispatchStep cbs stop_time stopped s i fd rev).2.2 ++
               (dispatchLoop cbs pollRet stop_time usb_due fuel 1 0 true
                 (dispatchStep cbs stop_time stopped s i fd rev).1
                 (dispatchStep cbs stop_time stopped s i fd rev).2.1).2.2)).foldl
              runningUpd s.running := by
        intro fd rev
        rw [List.foldl_cons, List.foldl_append]
        rw [show runningUpd s.running
            (Ev.call (fireRecord stop_time usb_due s i fd rev)) = s.running from rfl]
        rw [← dispatchStep_running cbs stop_time stopped s i fd rev]
        exact ih 1 0 true _ _
      simp only [dispatchLoop, if_pos hi]
      by_cases htr : (s.sources.getD i default).triggered = true
      · simp only [if_pos htr]
        exact ih (i + 1) _ ta stopped s
      · simp only [if_neg htr]
        by_cases hskip : pollRet > 0 ∧
            (aggregateFd s.pollfds fdi (s.sources.getD i default).num_fds
              (s.sources.getD i default).poll_object).2 = 0
        · simp only [if_pos hskip]
          exact ih (i + 1) _ ta stopped s
        · simp only [if_neg hskip]
          by_cases hple : pollRet ≤ 0
          · simp only [if_pos hple]
            by_cases hw : stop_time <
                (if (decide (usb_due < (s.sources.getD i default).due ∧
                    (s.sources.getD i default).poll_object = s.ctx.libusb_ctx)) = true
                 then usb_due else (s.sources.getD i default).due)
            · rw [if_pos (And.intro trivial hw)]
              exact ih (i + 1) _ ta stopped s
            · rw [if_neg (fun hcon => hw hcon.2)]
              exact key _ _
          · simp only [if_neg hple]
            by_cases hcond : (aggregateFd s.pollfds fdi
                  (s.sources.getD i default).num_fds
                  (s.sources.getD i default).poll_object).2 = 0 ∧
                stop_time <
                (if (decide (usb_due < (s.sources.getD i default).due ∧
                    (s.sources.getD i default).poll_object = s.ctx.libusb_ctx)) = true
                 then usb_due else (s.sources.getD i default).due)
            · rw [if_pos hcond]
              exact ih (i + 1) _ ta stopped s
            · rw [if_neg hcond]
              exact key _ _
    · simp only [dispatchLoop, if_neg hi]
      rfl

theorem iteration_running (fuel : Nat) (cbs : CbOracle) (o : IterOracle)
    (s : Session) :
    (sr_session_iteration fuel cbs o s).2.1.running
      = (sr_session_iteration fuel cbs o s).2.2.foldl runningUpd s.running := by
  simp only [sr_session_iteration]
  by_cases h0 : s.sources.length = 0
  · simp only [if_pos h0]
    exact check_aborted_running s
  · simp only [if_neg h0]
    by_cases h1 : (resetTriggered s).ctx.usb_source_present = true ∧
        o.usbHint = UsbHint.err
    · simp only [if_pos h1]
      rfl
    · simp only [if_neg h1]
      by_cases h2 : o.pollRet < 0 ∧ o.pollEINTR = false
      · simp only [if_pos h2]
        rfl
      · simp only [if_neg h2]
        have hd := dispatchLoop_running cbs o.pollRet o.stop_time
          (usbDueOf (resetTriggered s).ctx.usb_source_present o.usbHint o.start_time)
          fuel 0 0 false false
          { resetTriggered s with
            pollfds := pollWrite (resetTriggered s).pollfds o.pollRevents }
        split
        · rw [List.foldl_cons]
          exact hd
        · rw [List.foldl_cons, List.foldl_append]
          exact (check_aborted_running _).trans
            (congrArg (fun b => List.foldl runningUpd b _) hd)

theorem runLoop_running (itf : Nat) (cbs : CbOracle) (os : Nat → IterOracle) :
    ∀ (fuel k : Nat) (s : Session),
      (runLoop itf cbs os fuel k s).2.1.running
        = (runLoop itf cbs os fuel k s).2.2.foldl runningUpd s.running := by
  intro fuel
  induction fuel with
  | zero => intro k s; rfl
  | succ fuel ih =>
    intro k s
    simp only [runLoop]
    by_cases hlen : s.sources.length > 0
    · simp only [if_pos hlen]
      by_cases hret : (sr_session_iteration itf cbs (os k) s).1 ≠ SR_OK
      · simp only [if_pos hret]
        exact iteration_running itf cbs (os k) s
      · simp only [if_neg hret]
        rw [List.foldl_append, ← iteration_running itf cbs (os k) s]
        exact ih (k + 1) _
    · simp only [if_neg hlen]
      rfl

theorem run_running (rf itf : Nat) (cbs : CbOracle) (os : Nat → IterOracle)
    (s : Session) :
    (sr_session_run rf itf cbs os s).2.1.running
      = (sr_session_run rf itf cbs os s).2.2.foldl runningUpd s.running := by
  rw [sr_session_run]
  by_cases hd : s.devs = []
  · simp only [if_pos hd]
    rfl
  · simp only [if_neg hd]
    rw [List.foldl_cons]
    rw [show runningUpd s.running Ev.runEnter = true from rfl]
    exact runLoop_running itf cbs os rf 0 { s with running := true }

theorem dev_add_running (s : Session) (sdi : Option Dev) :
    (sr_session_dev_add s sdi).2.running = s.running := by
  cases sdi with
  | none => rfl
  | some d =>
    simp only [sr_session_dev_add]
    by_cases h1 : d.in_session = true
    · simp only [if_pos h1]
    · simp only [if_neg h1]
      cases d.driver with
      | none => rfl
      | some dr =>
        by_cases h2 : dr.has_dev_open = false
        · simp only [if_pos h2]
        · simp only [if_neg h2]
          by_cases h3 : ({ s with devs := s.devs ++ [{ d with in_session := true }]
              } : Session).running = true
          · simp only [if_pos h3]
            by_cases h4 : d.config_commit_ret ≠ SR_OK
            · simp only [if_pos h4]
            · simp only [if_neg h4]
              by_cases h5 : dr.dev_acquisition_start_ret ≠ SR_OK
              · simp only [if_pos h5]
              · simp only [if_neg h5]
          · simp only [if_neg h3]

theorem applySessionOp_running (s : Session) (op : SessionOp) :
    (applySessionOp s op).1.running
      = (applySessionOp s op).2.foldl runningUpd s.running := by
  cases op with
  | devAdd sdi => exact dev_add_running s sdi
  | start => rfl
  | run rf itf cbs os => exact run_running rf itf cbs os s
  | stopSync => rfl
  | requestStop => rfl
  | sourceAdd fd ev t cb cbd now => exact source_add_running _ _ _ _ _ _ _
  | sourceRemove po => exact remove_internal_running _ _

theorem applySessionOps_running (ops : List SessionOp) (s : Session) :
    (applySessionOps s ops).1.running
      = (applySessionOps s ops).2.foldl runningUpd s.running := by
  induction ops generalizing s with
  | nil => rfl
  | cons op rest ih =>
    simp only [applySessionOps]
    rw [List.foldl_append, ← applySessionOp_running s op]
    exact ih (applySessionOp s op).1

/-- Claim C8, amended: after any sequence of public operations on a fresh
session, the running flag is true exactly when run has entered its loop
(setting running) more recently than any completed stop_sync; start never
sets running. -/
theorem C8_running_iff_run_amended (ctx : SrContext) (ops : List SessionOp) :
    (applySessionOps (sr_session_new ctx) ops).1.running
      = runningSpec (applySessionOps (sr_session_new ctx) ops).2 := by
  rw [runningSpec, applySessionOps_running]
  rfl

/-- Driver whose open capability is present and whose start succeeds. -/
def wDriverOk : Driver :=
  { has_dev_open := true
    dev_acquisition_start_ret := SR_OK
    has_dev_acquisition_stop := true }

/-- A real device with an enabled channel whose driver start succeeds. -/
def wDevOk : Dev :=
  { driver := some wDriverOk
    channels := [true]
    config_commit_ret := SR_OK
    in_session := false }

/-- Claim C8 as stated is false on the code: after a successful
sr_session_start (and no stop_sync), the running flag is still false,
because only sr_session_run sets it. -/
theorem C8_start_does_not_set_running_counterexample :
    startedSpec (applySessionOps (sr_session_new wCtx)
        [.devAdd (some wDevOk), .start]).2 = true ∧
    (applySessionOps (sr_session_new wCtx)
        [.devAdd (some wDevOk), .start]).1.running = false := by
  decide

/-- Claim C4 as stated is false on the code: run on a newly created
session (no devices) returns SR_ERR_ARG, not Ok. -/
theorem C4_run_fresh_session_counterexample :
    (sr_session_run 5 5 wCbs (fun _ => wIterO) (sr_session_new wCtx)).1
      = some SR_ERR_ARG ∧
    pollEvents (sr_session_run 5 5 wCbs (fun _ => wIterO)
      (sr_session_new wCtx)).2.2 = [] ∧
    SR_ERR_ARG ≠ SR_OK := by
  refine ⟨rfl, rfl, by decide⟩

/-- Claim C4, amended: run on a newly created session returns SR_ERR_ARG
(a session cannot be run without devices) performing zero poll calls; on
a session with at least one device and an empty source registry, run
returns Ok with zero poll calls, having set the running flag. -/
theorem C4_run_amended :
    (∀ (ctx : SrContext) (rf itf : Nat) (cbs : CbOracle) (os : Nat → IterOracle),
      sr_session_run rf itf cbs os (sr_session_new ctx)
        = (some SR_ERR_ARG, sr_session_new ctx, []) ∧
      pollEvents (sr_session_run rf itf cbs os (sr_session_new ctx)).2.2 = []) ∧
    (∀ (s : Session) (rf itf : Nat) (cbs : CbOracle) (os : Nat → IterOracle),
      s.devs ≠ [] → s.sources = [] → 0 < rf →
      (sr_session_run rf itf cbs os s).1 = some SR_OK ∧
      pollEvents (sr_session_run rf itf cbs os s).2.2 = [] ∧
      (sr_session_run rf itf cbs os s).2.1.running = true) := by
  constructor
  · intro ctx rf itf cbs os
    exact ⟨rfl, rfl⟩
  · intro s rf itf cbs os hdev hsrc hrf
    rw [sr_session_run, if_neg hdev]
    obtain ⟨rf', rfl⟩ : ∃ rf', rf = rf' + 1 :=
      ⟨rf - 1, by omega⟩
    rw [runLoop]
    rw [if_neg (by rw [hsrc]; simp)]
    exact ⟨rfl, rfl, rfl⟩

/-- Session with one device and an empty registry, for the C4 witness. -/
def wSessDev : Session :=
  { sr_session_new wCtx with devs := [wDevOk] }

theorem C4_run_amended_witness :
    (sr_session_run 4 4 wCbs (fun _ => wIterO) (sr_session_new wCtx)
        = (some SR_ERR_ARG, sr_session_new wCtx, []) ∧
      pollEvents (sr_session_run 4 4 wCbs (fun _ => wIterO)
        (sr_session_new wCtx)).2.2 = []) ∧
    ((sr_session_run 4 4 wCbs (fun _ => wIterO) wSessDev).1 = some SR_OK ∧
      pollEvents (sr_session_run 4 4 wCbs (fun _ => wIterO) wSessDev).2.2 = [] ∧
      (sr_session_run 4 4 wCbs (fun _ => wIterO) wSessDev).2.1.running = true) :=
  ⟨C4_run_amended.1 wCtx 4 4 wCbs (fun _ => wIterO),
   C4_run_amended.2 wSessDev 4 4 wCbs (fun _ => wIterO) (by decide) (by decide)
     (by decide)⟩

theorem C7_pure_io_skip_amended_witness :
    (wIterOUsb.pollRet > 0 →
      ((callEvents (sr_session_iteration 3 wCbs wIterOUsb wSessUsb).2.2).getD 0
        default).revents ≠ 0) ∧
    (wIterOUsb.stop_time < INT64_MAX →
      ((callEvents (sr_session_iteration 3 wCbs wIterOUsb wSessUsb).2.2).getD 0
        default).timeout < 0 →
      ((callEvents (sr_session_iteration 3 wCbs wIterOUsb wSessUsb).2.2).getD 0
        default).dueBefore = INT64_MAX →
      ((callEvents (sr_session_iteration 3 wCbs wIterOUsb wSessUsb).2.2).getD 0
        default).revents = 0 →
      ((callEvents (sr_session_iteration 3 wCbs wIterOUsb wSessUsb).2.2).getD 0
        default).usbAdjusted = true) :=
  C7_pure_io_skip_amended 3 wCbs wIterOUsb wSessUsb
    ((callEvents (sr_session_iteration 3 wCbs wIterOUsb wSessUsb).2.2).getD 0
      default) (by decide)

end Sigrok
